import Mathlib

/-!
# The gateway's request-dispatch core

A shallow embedding of `gateway/middleware/auth.go`, `gateway/middleware/rate_limit.go`,
`gateway/middleware/logging.go`, `gateway/router/router.go` and the wiring of
`gateway/main.go`, together with the pieces of the Go standard library (`strings`,
`net/http`, `net/url`, `net/http/httputil`) and of `golang.org/x/time/rate` that these
files call.

Conventions of the embedding.

* A Go `string` is a Lean `String`; `strings.HasPrefix` and friends work on the list of
  characters (for valid UTF-8 a byte prefix and a character prefix are the same thing).
* A handler does not mutate a `ResponseWriter`; it returns the list of operations it
  performed on the writer and on the network, in order (`Event`).  Calling
  `next.ServeHTTP(w, r)` is the trace `next r`, so a handler that calls `next` twice has
  the trace `next r ++ next r` and one that never calls it has a trace in which `next`
  does not occur.
* A panic is an event too: it ends the trace of the handler that raised it and of every
  caller that does not recover.
* State that outlives a request (the rate limiter's map) and the clock are passed
  explicitly.
* Functions of the repository that are not among the sources
  (`shared.ExtractTokenFromHeader`, `shared.ValidateJWT`), the Unicode tables behind
  `strings.EqualFold`, `strings.ToUpper` and `strings.ToLower`, `url.Parse` and the HTTP
  transport are parameters.
-/

/-! ## `strings` -/

namespace strings

/-- Go `strings.HasPrefix(s, pfx)`: `s` begins with `pfx`. -/
def HasPrefix (s pfx : String) : Bool :=
  pfx.data.isPrefixOf s.data

/-- Go `strings.HasSuffix(s, sfx)`: `s` ends with `sfx`. -/
def HasSuffix (s sfx : String) : Bool :=
  sfx.data.isSuffixOf s.data

/-- Go `strings.TrimPrefix(s, pfx)`: `s` without the leading `pfx`, or `s` itself when it
does not begin with `pfx`. -/
def TrimPrefix (s pfx : String) : String :=
  if HasPrefix s pfx then ⟨s.data.drop pfx.data.length⟩ else s

/-- The rune loop of Go `strings.EqualFold`: the two strings are consumed rune by rune, a
pair of runes passes when the runes are equal or lie in the same simple-folding orbit,
and the strings must end together.  `fold` sends a rune to the representative of its
orbit (the Unicode table itself is a parameter). -/
def EqualFold.loop (fold : Char → Char) : List Char → List Char → Bool
  | [], [] => true
  | sr :: s, tr :: t => (sr == tr || fold sr == fold tr) && EqualFold.loop fold s t
  | _, _ => false

/-- Go `strings.EqualFold(s, t)`: equality under simple case folding. -/
def EqualFold (fold : Char → Char) (s t : String) : Bool :=
  EqualFold.loop fold s.data t.data

/-- Go `strings.ToUpper(s)`: every rune of `s` replaced by its `unicode.ToUpper`; `upper`
is that mapping of runes (the Unicode table is a parameter). -/
def ToUpper (upper : Char → Char) (s : String) : String :=
  ⟨s.data.map upper⟩

/-- Go `strings.ToLower(s)`: every rune of `s` replaced by its `unicode.ToLower`; `lower`
is that mapping of runes (the Unicode table is a parameter). -/
def ToLower (lower : Char → Char) (s : String) : String :=
  ⟨s.data.map lower⟩

/-- Whether every character of the string is ASCII (below U+0080). -/
def isASCII (s : String) : Bool :=
  s.data.all (fun c => decide (c.toNat < 128))

end strings

/-- The folding table restricted to ASCII: the two cases of a letter `a`..`z` form one
orbit, every other character is alone.  Used to evaluate examples. -/
def asciiFold : Char → Char :=
  Char.toLower

/-! ## `net/url` and `net/http` data -/

/-- The fields of `url.URL` that the gateway reads or writes.  `Path` is the decoded
path; requests are taken in their default encoding (`RawPath` empty). -/
structure URL where
  Scheme : String
  Host : String
  Path : String
  RawQuery : String
deriving DecidableEq, Repr

/-- Go `url.URL.String()` for a URL with scheme and host. -/
def URL.String (u : URL) : String :=
  u.Scheme ++ "://" ++ u.Host ++ u.Path ++ (if u.RawQuery = "" then "" else "?" ++ u.RawQuery)

/-- An `http.Header`: a map from canonical key to the list of values. -/
abbrev Header := String → Option (List String)

/-- The empty header map. -/
def Header.empty : Header :=
  fun _ => none

/-- Bytes allowed in a header field name (`httpguts` token characters). -/
def validHeaderFieldByte (c : Char) : Bool :=
  c.isAlphanum || "!#$%&*+-.^_|~".data.contains c || c == (Char.ofNat 39) || c == (Char.ofNat 96)

/-- The case pass of `textproto.canonicalMIMEHeaderKey`: the first letter and every letter
after a hyphen is upper-cased, every other letter lower-cased. -/
def canonicalMIMEHeaderKey.loop : Bool → List Char → List Char
  | _, [] => []
  | upper, c :: cs =>
    (if upper then c.toUpper else c.toLower) :: canonicalMIMEHeaderKey.loop (c == '-') cs

/-- Go `textproto.CanonicalMIMEHeaderKey`: a key with a byte that is not a token byte is
returned unchanged. -/
def CanonicalMIMEHeaderKey (s : String) : String :=
  if s.data.all validHeaderFieldByte then ⟨canonicalMIMEHeaderKey.loop true s.data⟩ else s

/-- Go `Header.Set(key, value)`: the entry of the canonical key becomes the single
value. -/
def Header.Set (h : Header) (key value : String) : Header :=
  fun k => if k = CanonicalMIMEHeaderKey key then some [value] else h k

/-- Go `Header.Get(key)`: the first value of the canonical key, or the empty string. -/
def Header.Get (h : Header) (key : String) : String :=
  match h (CanonicalMIMEHeaderKey key) with
  | some (v :: _) => v
  | _ => ""

/-- A value stored in a request context. -/
inductive CtxValue where
  | uint (n : Nat)
  | str (s : String)
deriving DecidableEq, Repr

/-- A `context.Context` as far as values go: the bindings, innermost first. -/
abbrev context.Context := List (String × CtxValue)

/-- Go `context.WithValue(ctx, key, val)`. -/
def context.WithValue (ctx : context.Context) (key : String) (val : CtxValue) :
    context.Context :=
  (key, val) :: ctx

/-- Go `ctx.Value(key)`: the innermost binding of the key. -/
def context.Context.Value (ctx : context.Context) (key : String) : Option CtxValue :=
  (ctx.find? (fun kv => kv.1 == key)).map Prod.snd

/-- An inbound `http.Request`. -/
structure Request where
  Method : String
  URL : URL
  Header : Header
  Body : String
  RemoteAddr : String
  ctx : context.Context

/-- Go `r.Context()`. -/
def Request.Context (r : Request) : context.Context :=
  r.ctx

/-- Go `r.WithContext(ctx)`: a copy of the request with its context replaced. -/
def Request.WithContext (r : Request) (ctx : context.Context) : Request :=
  { r with ctx := ctx }

/-- An `http.Response` as received from a backend. -/
structure Response where
  StatusCode : Nat
  Header : Header
  Body : String

/-- What a handler does while it serves one request, in order. -/
inductive Event where
  /-- The call `w.Header().Set(key, value)` -/
  | setHeader (key value : String)
  /-- The response headers of a backend copied into `w.Header()` -/
  | copyHeader (h : Header)
  /-- The call `w.WriteHeader(code)` -/
  | writeHeader (code : Nat)
  /-- The call `w.Write(data)` -/
  | write (data : String)
  /-- The request `out` sent to a backend by the transport -/
  | roundTrip (out : Request)
  /-- The line of `log.Printf` for a served request: method, path, remote address and
  status code (the duration, a reading of the clock, is left out) -/
  | log (method path remoteAddr : String) (status : Nat)
  /-- The call `panic(v)`: the handler stops here, and so does every caller that does not
  recover -/
  | panic (v : String)

/-- An `http.Handler`: the trace of `ServeHTTP(w, r)`. -/
abbrev Handler := Request → List Event

/-- The status line the client receives: the first `WriteHeader` wins, a `Write` before
any `WriteHeader` sends 200, and so does a handler that returns without writing.  (After a
panic that precedes every write the server sends no status line at all; the value 200 is
then only the default.) -/
def statusCode : List Event → Nat
  | [] => 200
  | Event.writeHeader code :: _ => code
  | Event.write _ :: _ => 200
  | _ :: rest => statusCode rest

/-- The requests that reached a backend during the trace. -/
def backendRequests : List Event → List Request
  | [] => []
  | Event.roundTrip out :: rest => out :: backendRequests rest
  | _ :: rest => backendRequests rest

/-- Whether a panic was raised during the trace. -/
def panicked : List Event → Bool
  | [] => false
  | Event.panic _ :: _ => true
  | _ :: rest => panicked rest

/-- The body bytes written to the client during the trace. -/
def bodyWritten : List Event → String
  | [] => ""
  | Event.write data :: rest => data ++ bodyWritten rest
  | _ :: rest => bodyWritten rest

namespace http

def StatusOK : Nat := 200
def StatusUnauthorized : Nat := 401
def StatusNotFound : Nat := 404
def StatusMethodNotAllowed : Nat := 405
def StatusTooManyRequests : Nat := 429
def StatusBadGateway : Nat := 502

/-- Go `http.Error(w, error, code)`: plain-text content type, `nosniff`, the status code,
then the message and a newline. -/
def Error (error : String) (code : Nat) : List Event :=
  [Event.setHeader "Content-Type" "text/plain; charset=utf-8",
   Event.setHeader "X-Content-Type-Options" "nosniff",
   Event.writeHeader code,
   Event.write (error ++ "\n")]

/-- Go `http.NotFound(w, r)`. -/
def NotFound : Handler :=
  fun _ => Error "404 page not found" StatusNotFound

/-- Go `http.StripPrefix(pfx, h)`: with an empty prefix `h` itself; otherwise a request
whose path begins with `pfx` is handed to `h` with the prefix removed from the path, and
any other request is answered 404. -/
def StripPrefix (pfx : String) (h : Handler) : Handler :=
  if pfx = "" then h
  else fun r =>
    let p := strings.TrimPrefix r.URL.Path pfx
    if p.length < r.URL.Path.length then
      h { r with URL := { r.URL with Path := p } }
    else
      NotFound r

end http

/-! ## `gateway/middleware/auth.go` -/

/-- The fields of `shared.UserClaims` read by the gateway. -/
structure UserClaims where
  UserID : Nat
  Email : String
deriving DecidableEq, Repr

/-- The two functions of package `shared` that `AuthMiddleware` calls and that are not
among the sources: both return a value or an error. -/
structure Shared where
  ExtractTokenFromHeader : Request → Except String String
  ValidateJWT : String → Except String UserClaims

/-- Modelled from the spec: `shared.WriteErrorResponse` is not among the sources; the
spec has such a failure answered with the given status and a generic message, so the
helper sends the status code it is given and then the message. -/
def shared.WriteErrorResponse (statusCode : Nat) (message : String) : List Event :=
  [Event.writeHeader statusCode, Event.write message]

/-- The loop of `shouldSkipAuth` over `skipPaths`. -/
def shouldSkipAuth.loop (path : String) : List String → Bool
  | [] => false
  | skipPath :: rest =>
    if strings.HasPrefix path skipPath then true else shouldSkipAuth.loop path rest

/-- The slice `skipPaths` of `shouldSkipAuth`. -/
def skipPaths : List String :=
  ["/auth/login", "/auth/register", "/metrics", "/health"]

/-- Go `shouldSkipAuth(path)`. -/
def shouldSkipAuth (path : String) : Bool :=
  shouldSkipAuth.loop path skipPaths

/-- Go `AuthMiddleware(next)`. -/
def AuthMiddleware (sh : Shared) (next : Handler) : Handler := fun r =>
  if shouldSkipAuth r.URL.Path then
    next r
  else
    match sh.ExtractTokenFromHeader r with
    | .error _ =>
      shared.WriteErrorResponse http.StatusUnauthorized "Invalid or missing token"
    | .ok token =>
      match sh.ValidateJWT token with
      | .error _ =>
        shared.WriteErrorResponse http.StatusUnauthorized "Invalid token"
      | .ok claims =>
        let ctx := r.Context
        let ctx := context.WithValue ctx "user_id" (CtxValue.uint claims.UserID)
        let ctx := context.WithValue ctx "user_email" (CtxValue.str claims.Email)
        next (r.WithContext ctx)

/-! ## `golang.org/x/time/rate` -/

namespace rate

/-- One token, and one second, in the units of the model: time is counted in nanoseconds
and tokens in billionths of a token, so that a limit of `r` tokens per second refills `r`
units per nanosecond and all arithmetic is exact. -/
def unit : Nat := 1000000000

/-- A `rate.Limiter`: `limit` tokens per second, bucket size `burst`, the current
`tokens` (in billionths) and the time `last` of the last update (in nanoseconds). -/
structure Limiter where
  limit : Nat
  burst : Nat
  tokens : Int
  last : Nat
deriving DecidableEq, Repr

/-- Go `rate.NewLimiter(r, b)`: a full bucket. -/
def NewLimiter (r : Nat) (b : Nat) : Limiter :=
  { limit := r, burst := b, tokens := (b * unit : Nat), last := 0 }

/-- Go `lim.advance(t)`: the tokens available at time `t`, the elapsed time since `last`
(zero when the clock went backwards) refilled at `limit` and capped at `burst`. -/
def Limiter.advance (lim : Limiter) (t : Nat) : Int :=
  let last := if t < lim.last then t else lim.last
  let elapsed := t - last
  let delta : Nat := elapsed * lim.limit
  let tokens := lim.tokens + delta
  if tokens > ((lim.burst * unit : Nat) : Int) then ((lim.burst * unit : Nat) : Int) else tokens

/-- Go `lim.reserveN(t, n, maxFutureReserve)` as used by `AllowN`: the updated limiter
and the `ok` of the reservation.  The state changes only when the reservation is ok. -/
def Limiter.reserveN (lim : Limiter) (t : Nat) (n : Nat) (maxFutureReserve : Nat) :
    Limiter × Bool :=
  if lim.limit = 0 then
    if lim.burst ≥ n then ({ lim with burst := lim.burst - n }, true) else (lim, false)
  else
    let tokens := lim.advance t - ((n * unit : Nat) : Int)
    let waitDuration : Nat := if tokens < 0 then (-tokens).toNat / lim.limit else 0
    let ok := decide (n ≤ lim.burst) && decide (waitDuration ≤ maxFutureReserve)
    if ok then ({ lim with last := t, tokens := tokens }, true) else (lim, false)

/-- Go `lim.AllowN(t, n)`. -/
def Limiter.AllowN (lim : Limiter) (t : Nat) (n : Nat) : Limiter × Bool :=
  lim.reserveN t n 0

/-- Go `lim.Allow()`, with the reading `now` of the clock made explicit. -/
def Limiter.Allow (lim : Limiter) (now : Nat) : Limiter × Bool :=
  lim.AllowN now 1

end rate

/-! ## `gateway/middleware/rate_limit.go` -/

/-- Go `RateLimiter`: the limiter of each client seen so far, and the configuration. -/
structure RateLimiter where
  limiters : String → Option rate.Limiter
  rps : Nat
  burst : Nat

/-- Go `NewRateLimiter(rps, burst)`. -/
def NewRateLimiter (rps : Nat) (burst : Nat) : RateLimiter :=
  { limiters := fun _ => none, rps := rps, burst := burst }

/-- The map assignment `rl.limiters[clientID] = limiter`. -/
def RateLimiter.store (rl : RateLimiter) (clientID : String) (limiter : rate.Limiter) :
    RateLimiter :=
  { rl with limiters := fun k => if k = clientID then some limiter else rl.limiters k }

/-- Go `rl.getLimiter(clientID)`: the limiter of the client, created and stored on first
use; the map after the call is returned with it. -/
def RateLimiter.getLimiter (rl : RateLimiter) (clientID : String) :
    RateLimiter × rate.Limiter :=
  match rl.limiters clientID with
  | some limiter => (rl, limiter)
  | none =>
    let limiter := rate.NewLimiter rl.rps rl.burst
    (rl.store clientID limiter, limiter)

/-- Go `getClientID(r)`. -/
def getClientID (r : Request) : String :=
  r.RemoteAddr

/-- The `limiter` that `RateLimitingMiddleware` creates once, before it returns the
handler. -/
def RateLimitingMiddleware.limiter : RateLimiter :=
  NewRateLimiter 10 30

/-- The handler returned by Go `RateLimitingMiddleware(next)`, serving `r` at time `now`
with the limiter map in state `rl`: the new state and the trace.  The map holds pointers,
so what `Allow` did to the limiter is stored back under the client's key. -/
def RateLimitingMiddleware (next : Handler) (rl : RateLimiter) (now : Nat) (r : Request) :
    RateLimiter × List Event :=
  let clientID := getClientID r
  let (rl, limiter) := rl.getLimiter clientID
  let (limiter, ok) := limiter.Allow now
  let rl := rl.store clientID limiter
  if !ok then
    (rl, http.Error "Rate limit exceeded" http.StatusTooManyRequests)
  else
    (rl, next r)

/-- The handler of `RateLimitingMiddleware(next)` serving a sequence of requests, each
with its arrival time, one after the other: the final state and the trace of each. -/
def RateLimitingMiddleware.serveAll (next : Handler) :
    RateLimiter → List (Nat × Request) → RateLimiter × List (List Event)
  | rl, [] => (rl, [])
  | rl, (now, r) :: rest =>
    let (rl1, tr) := RateLimitingMiddleware next rl now r
    let (rl2, trs) := RateLimitingMiddleware.serveAll next rl1 rest
    (rl2, tr :: trs)

/-! ## `gateway/middleware/logging.go` -/

/-- Modelled from the spec: the type `responseWriter` that `LoggingMiddleware` wraps around
`w` is not among the sources; the spec has the logger observe the final status code written
by any inner stage, short-circuits included, so its field `statusCode` after the inner
handler has run is the status the inner trace sent, 200 when it set none. -/
def responseWriter_statusCode (inner : List Event) : Nat :=
  statusCode inner

/-- Go `LoggingMiddleware(next)`: the next handler runs once on the wrapped writer with the
request itself; when it has returned, the request is logged with the status code that the
wrapper captured.  A panic of the next handler passes through, there is no `recover`. -/
def LoggingMiddleware (next : Handler) : Handler := fun r =>
  let inner := next r
  if panicked inner then inner
  else inner ++ [Event.log r.Method r.URL.Path r.RemoteAddr (responseWriter_statusCode inner)]

/-! ## `net/http/httputil` and `http.ServeMux` -/

/-- What lies outside the process: the Unicode folding table used by `strings.EqualFold`
(`fold` sends a rune to the representative of its orbit), `url.Parse`, and the transport
that carries an outbound request to its backend and brings back the response or an
error. -/
structure Env where
  fold : Char → Char
  Parse : String → Except String URL
  RoundTrip : Request → Except String Response

namespace httputil

/-- Go `singleJoiningSlash(a, b)`: `a` and `b` joined with exactly one slash between
them. -/
def singleJoiningSlash (a b : String) : String :=
  let aslash := strings.HasSuffix a "/"
  let bslash := strings.HasPrefix b "/"
  if aslash && bslash then a ++ ⟨b.data.drop 1⟩
  else if !aslash && !bslash then a ++ "/" ++ b
  else a ++ b

/-- Go `rewriteRequestURL(req, target)`: scheme and host of the target, the target's path
joined with the request's, and the two queries joined. -/
def rewriteRequestURL (req : Request) (target : URL) : Request :=
  let targetQuery := target.RawQuery
  { req with
    URL :=
      { Scheme := target.Scheme
        Host := target.Host
        Path := singleJoiningSlash target.Path req.URL.Path
        RawQuery :=
          if targetQuery = "" || req.URL.RawQuery = "" then targetQuery ++ req.URL.RawQuery
          else targetQuery ++ "&" ++ req.URL.RawQuery } }

/-- The two hooks of `httputil.ReverseProxy` that the router sets. -/
structure ReverseProxy where
  Director : Request → Request
  ModifyResponse : Option (Response → Except String Response)

/-- Go `httputil.NewSingleHostReverseProxy(target)`. -/
def NewSingleHostReverseProxy (target : URL) : ReverseProxy :=
  { Director := fun req => rewriteRequestURL req target, ModifyResponse := none }

/-- Go `ReverseProxy.ServeHTTP`: the director rewrites the request, the transport carries
it to the backend once, the response passes through `ModifyResponse` and is copied to the
client; a failure of the transport or of `ModifyResponse` is answered 502.  (Hop-by-hop
and forwarding headers are not part of the model.) -/
def ReverseProxy.ServeHTTP (p : ReverseProxy) (transport : Request → Except String Response) :
    Handler := fun req =>
  let outreq := p.Director req
  Event.roundTrip outreq ::
    match transport outreq with
    | .error _ => [Event.writeHeader http.StatusBadGateway]
    | .ok res =>
      match (match p.ModifyResponse with
             | none => Except.ok res
             | some f => f res) with
      | .error _ => [Event.writeHeader http.StatusBadGateway]
      | .ok res =>
        [Event.copyHeader res.Header, Event.writeHeader res.StatusCode, Event.write res.Body]

end httputil

/-- An entry of an `http.ServeMux`. -/
structure muxEntry where
  pattern : String
  h : Handler

/-- An `http.ServeMux`: its entries in the order of registration.  Patterns are literal
paths. -/
abbrev ServeMux := List muxEntry

/-- Go `http.NewServeMux()`. -/
def http.NewServeMux : ServeMux :=
  []

/-- Go `mux.Handle(pattern, handler)`: panics on an empty pattern and on a pattern that is
already registered. -/
def ServeMux.Handle (mux : ServeMux) (pattern : String) (handler : Handler) :
    Except String ServeMux :=
  if pattern = "" then .error "http: invalid pattern"
  else if mux.any (fun e => e.pattern == pattern) then
    .error ("http: multiple registrations for " ++ pattern)
  else .ok (mux ++ [{ pattern := pattern, h := handler }])

/-- The longer of the best entry so far and a new candidate. -/
def ServeMux.longer (best : Option muxEntry) (e : muxEntry) : Option muxEntry :=
  match best with
  | none => some e
  | some b => if b.pattern.length < e.pattern.length then some e else some b

/-- The lookup of `http.ServeMux`: an entry whose pattern is the path itself; failing
that, the longest pattern ending in a slash that the path begins with. -/
def ServeMux.lookup (mux : ServeMux) (path : String) : Option muxEntry :=
  match mux.find? (fun e => e.pattern == path) with
  | some e => some e
  | none =>
    (mux.filter (fun e =>
      strings.HasSuffix e.pattern "/" && strings.HasPrefix path e.pattern)).foldl
      ServeMux.longer none

/-- Go `mux.ServeHTTP(w, r)` for a request whose path is already clean: the handler of the
matching entry, or 404. -/
def ServeMux.ServeHTTP (mux : ServeMux) : Handler := fun r =>
  match mux.lookup r.URL.Path with
  | some e => e.h r
  | none => http.NotFound r

/-! ## `gateway/router/router.go` -/

/-- Go `shared.Route`. -/
structure Route where
  Path : String
  Backend : String
  Methods : List String
deriving DecidableEq, Repr

/-- Go `Router`. -/
structure Router where
  routes : List Route
  mux : ServeMux

/-- Go `r.isMethodAllowed(method, allowedMethods)`. -/
def Router.isMethodAllowed (fold : Char → Char) (method : String) : List String → Bool
  | [] => false
  | allowed :: rest =>
    if strings.EqualFold fold method allowed then true
    else Router.isMethodAllowed fold method rest

/-- Go `r.modifyResponse(resp)`: the response after the three `Set` calls; the error is
always nil. -/
def Router.modifyResponse (resp : Response) : Except String Response :=
  let resp := { resp with Header := resp.Header.Set "Access-Control-Allow-Origin" "*" }
  let resp :=
    { resp with
      Header := resp.Header.Set "Access-Control-Allow-Methods" "GET, POST, PUT, DELETE, OPTIONS" }
  let resp :=
    { resp with
      Header := resp.Header.Set "Access-Control-Allow-Headers" "Content-Type, Authorization" }
  .ok resp

/-- The `proxy` that `setupRoutes` builds for a route whose backend parsed to
`backendURL`. -/
def Router.setupRoutes.proxy (backendURL : URL) : httputil.ReverseProxy :=
  { httputil.NewSingleHostReverseProxy backendURL with
    ModifyResponse := some Router.modifyResponse }

/-- The closure `handler` that `setupRoutes` creates for a route.  The closure reads the
loop variable `route`; each iteration has its own `route`, the loop semantics of Go 1.22
and later, and its own `proxy`. -/
def Router.setupRoutes.handler (env : Env) (proxy : httputil.ReverseProxy) (route : Route) :
    Handler := fun req =>
  if !Router.isMethodAllowed env.fold req.Method route.Methods then
    http.Error "Method not allowed" http.StatusMethodNotAllowed
  else
    proxy.ServeHTTP env.RoundTrip req

/-- The loop of `setupRoutes`: for each route the backend is parsed (a failure panics),
and the handler is registered under `Path + "/"` behind `http.StripPrefix` and under
`Path` directly. -/
def Router.setupRoutes.loop (env : Env) : ServeMux → List Route → Except String ServeMux
  | mux, [] => .ok mux
  | mux, route :: rest =>
    match env.Parse route.Backend with
    | .error _ => .error ("Invalid backend URL: " ++ route.Backend)
    | .ok backendURL =>
      let proxy := Router.setupRoutes.proxy backendURL
      let handler := Router.setupRoutes.handler env proxy route
      match mux.Handle (route.Path ++ "/") (http.StripPrefix route.Path handler) with
      | .error e => .error e
      | .ok mux =>
        match mux.Handle route.Path handler with
        | .error e => .error e
        | .ok mux => Router.setupRoutes.loop env mux rest

/-- The handler of the health check endpoint. -/
def Router.setupRoutes.health : Handler :=
  fun _ => [Event.writeHeader http.StatusOK, Event.write "OK"]

/-- Go `r.setupRoutes()`: the mux after all registrations, or the panic message. -/
def Router.setupRoutes (env : Env) (r : Router) : Except String Router :=
  match Router.setupRoutes.loop env r.mux r.routes with
  | .error e => .error e
  | .ok mux =>
    match mux.Handle "/health" Router.setupRoutes.health with
    | .error e => .error e
    | .ok mux => .ok { r with mux := mux }

/-- Go `NewRouter(routes)`: the router, or the panic message. -/
def NewRouter (env : Env) (routes : List Route) : Except String Router :=
  Router.setupRoutes env { routes := routes, mux := http.NewServeMux }

/-- Go `r.ServeHTTP(w, req)`. -/
def Router.ServeHTTP (r : Router) : Handler :=
  fun req => r.mux.ServeHTTP req

/-! ## `gateway/main.go` -/

/-- A handler whose answer depends on the rate limiter's map and on the clock: the new
map and the trace. -/
abbrev StatefulHandler := RateLimiter → Nat → Request → RateLimiter × List Event

/-- Go `main`, from `router.NewRouter(routes)` to the `Handler` of the server: the router
behind the middlewares of the three `router.Use` calls, `middleware.Logging`,
`middleware.RateLimiting`, `middleware.Metrics`, in that order; or the panic of
`NewRouter`.

Modelled from the spec: the method `Use` is not among the sources; in the spec the order is
fixed at wiring time and the stage wired first is the outermost.  `middleware.Logging` and
`middleware.RateLimiting` are `LoggingMiddleware` and `RateLimitingMiddleware`;
`middleware.Metrics`, of which there is no source, is a parameter.  `LoggingMiddleware`
calls its next handler once, with the request it received: the trace of that call is
`inner`. -/
def main.handler (env : Env) (Metrics : Handler → Handler) (routes : List Route) :
    Except String StatefulHandler :=
  match NewRouter env routes with
  | .error e => .error e
  | .ok router =>
    .ok (fun rl now r =>
      let (rl, inner) := RateLimitingMiddleware (Metrics router.ServeHTTP) rl now r
      (rl, LoggingMiddleware (fun _ => inner) r))

/-- The two entries that the loop of `setupRoutes` adds to the mux for a route whose
backend parses: the prefix registration and the exact registration. -/
def Router.setupRoutes.registrations (env : Env) (route : Route) : List muxEntry :=
  match env.Parse route.Backend with
  | .error _ => []
  | .ok backendURL =>
    [{ pattern := route.Path ++ "/"
       h := http.StripPrefix route.Path
         (Router.setupRoutes.handler env (Router.setupRoutes.proxy backendURL) route) },
     { pattern := route.Path
       h := Router.setupRoutes.handler env (Router.setupRoutes.proxy backendURL) route }]

/-! ## Examples used to evaluate the definitions -/

/-- A request with the given method, path, query and remote address, and nothing else. -/
def exampleRequest (method path query addr : String) : Request :=
  { Method := method
    URL := { Scheme := "", Host := "", Path := path, RawQuery := query }
    Header := Header.empty
    Body := ""
    RemoteAddr := addr
    ctx := [] }

/-- The parsed form of the backend `http://svc:9000`. -/
def exampleBackend : URL :=
  { Scheme := "http", Host := "svc:9000", Path := "", RawQuery := "" }

/-- An environment with ASCII folding, in which `http://svc:9000` is the one backend that
parses, and every backend answers 200 with an empty body. -/
def exampleEnv : Env :=
  { fold := asciiFold
    Parse := fun s => if s = "http://svc:9000" then .ok exampleBackend else .error "parse"
    RoundTrip := fun _ => .ok { StatusCode := 200, Header := Header.empty, Body := "" } }

/-- The route of the spec's example, allowing `GET`. -/
def exampleRoute : Route :=
  { Path := "/orders", Backend := "http://svc:9000", Methods := ["GET"] }

/-- A package `shared` in which no request carries a token. -/
def exampleSharedNoToken : Shared :=
  { ExtractTokenFromHeader := fun _ => .error "authorization header required"
    ValidateJWT := fun _ => .error "invalid token" }

/-- A next handler that answers 200 after reaching a backend with the request it got. -/
def exampleNext : Handler :=
  fun r => [Event.roundTrip r, Event.writeHeader 200, Event.write "ok"]

/-- The router of the spec's example: the single route `/orders` to `http://svc:9000`
(an empty mux if the construction panics). -/
def exampleRouter : Router :=
  match NewRouter exampleEnv [exampleRoute] with
  | .ok r => r
  | .error _ => { routes := [], mux := [] }

/-- A package `shared` in which every request carries the token `t`, valid for the user 7
with the address `a@b.c`. -/
def exampleSharedValid : Shared :=
  { ExtractTokenFromHeader := fun _ => .ok "t"
    ValidateJWT := fun _ => .ok { UserID := 7, Email := "a@b.c" } }

/-- A metrics middleware that only passes the request on. -/
def exampleMetrics : Handler → Handler :=
  fun next => next

/-- A metrics middleware that panics. -/
def exampleMetricsPanics : Handler → Handler :=
  fun _ _ => [Event.panic "runtime error"]

/-- The handler that `main` gives to the server for the route table of the spec's example
and the given metrics middleware (a handler that does nothing if the construction
panics). -/
def exampleGateway (Metrics : Handler → Handler) : StatefulHandler :=
  match main.handler exampleEnv Metrics [exampleRoute] with
  | .ok h => h
  | .error _ => fun rl _ _ => (rl, [])

/-- The route of the spec's example with no `methods` entry. -/
def exampleRouteNoMethods : Route :=
  { Path := "/orders", Backend := "http://svc:9000", Methods := [] }

/-- The router built from the single route without `methods` (an empty mux if the
construction panics). -/
def exampleRouterNoMethods : Router :=
  match NewRouter exampleEnv [exampleRouteNoMethods] with
  | .ok r => r
  | .error _ => { routes := [], mux := [] }

/-- An environment in which `Parse` also accepts `/internal`, a path without scheme and
host: Go `url.Parse` takes a relative reference and returns it with an empty scheme. -/
def exampleEnvRelative : Env :=
  { exampleEnv with
    Parse := fun s =>
      if s = "http://svc:9000" then .ok exampleBackend
      else if s = "/internal" then
        .ok { Scheme := "", Host := "", Path := "/internal", RawQuery := "" }
      else .error "parse" }

/-- A route whose backend is the relative reference `/internal`. -/
def exampleRouteRelative : Route :=
  { Path := "/x", Backend := "/internal", Methods := ["GET"] }

/-- The router built from the route to `/internal` (an empty mux if the construction
panics). -/
def exampleRouterRelative : Router :=
  match NewRouter exampleEnvRelative [exampleRouteRelative] with
  | .ok r => r
  | .error _ => { routes := [], mux := [] }

/-- The simple-folding orbits of the Unicode tables on ASCII and on the four characters
U+0130, U+0131, U+017F and U+212A: the two cases of an ASCII letter form one orbit, the
Kelvin sign U+212A lies in the orbit of `k`, the long s U+017F in the orbit of `s`, and
the dotted capital I U+0130 and the dotless small i U+0131 are each alone.  The function
gives the representative of the orbit; on other characters it is not the table. -/
def exampleSimpleFold (c : Char) : Char :=
  if c = Char.ofNat 0x212A then 'k'
  else if c = Char.ofNat 0x17F then 's'
  else c.toLower

/-- Go `unicode.ToUpper` on ASCII and on U+0130, U+0131, U+017F and U+212A: the upper case
of the dotless i U+0131 is `I` and that of the long s U+017F is `S`; U+0130 and U+212A are
upper case already.  On other characters it is not the table. -/
def exampleToUpper (c : Char) : Char :=
  if c = Char.ofNat 0x131 then 'I'
  else if c = Char.ofNat 0x17F then 'S'
  else c.toUpper

/-- Go `unicode.ToLower` on ASCII and on U+0130, U+0131, U+017F and U+212A: the lower case
of the dotted capital I U+0130 is `i` and that of the Kelvin sign U+212A is `k`; U+0131
and U+017F are lower case already.  On other characters it is not the table. -/
def exampleToLower (c : Char) : Char :=
  if c = Char.ofNat 0x130 then 'i'
  else if c = Char.ofNat 0x212A then 'k'
  else c.toLower

theorem strings.HasPrefix_iff (s pfx : String) :
    strings.HasPrefix s pfx = true ↔ ∃ t : String, s = pfx ++ t := by
  unfold strings.HasPrefix
  rw [ List.isPrefixOf_iff_prefix]
  constructor
  · rintro ⟨t, ht⟩
    refine ⟨⟨t⟩, ?_⟩
    apply String.ext
    simp [String.data_append, ht]
  · rintro ⟨t, rfl⟩
    exact ⟨t.data, by simp [String.data_append]⟩

theorem strings.HasPrefix_append (pfx t : String) : strings.HasPrefix (pfx ++ t) pfx = true :=
  (strings.HasPrefix_iff _ _).2 ⟨t, rfl⟩

theorem shouldSkipAuth_loop_iff (path : String) (l : List String) :
    shouldSkipAuth.loop path l = true ↔ ∃ s ∈ l, strings.HasPrefix path s = true := by
  induction l with
  | nil => simp [shouldSkipAuth.loop]
  | cons a l ih =>
    unfold shouldSkipAuth.loop
    by_cases h : strings.HasPrefix path a = true
    · simp [h]
    · simp [h, ih]

/-- C3: `shouldSkipAuth p` holds exactly when `p` begins with one of the four fixed
prefixes `/auth/login`, `/auth/register`, `/metrics`, `/health`; the match is by prefix,
so every extension of a skip prefix is skipped (`/health-check-evil` among them), and
`/orders`, `/auth` and `/Health`, which begin with none of the four, are not. -/
theorem C3_shouldSkipAuth_is_prefix_match :
    skipPaths = ["/auth/login", "/auth/register", "/metrics", "/health"] ∧
    (∀ p : String, shouldSkipAuth p = true ↔ ∃ s ∈ skipPaths, ∃ t : String, p = s ++ t) ∧
    (∀ s ∈ skipPaths, ∀ t : String, shouldSkipAuth (s ++ t) = true) ∧
    shouldSkipAuth "/health-check-evil" = true ∧
    shouldSkipAuth "/orders" = false ∧
    shouldSkipAuth "/auth" = false ∧
    shouldSkipAuth "/Health" = false := by
  have key : ∀ p : String,
      shouldSkipAuth p = true ↔ ∃ s ∈ skipPaths, ∃ t : String, p = s ++ t := by
    intro p
    unfold shouldSkipAuth
    rw [shouldSkipAuth_loop_iff]
    constructor
    · rintro ⟨s, hs, h⟩
      exact ⟨s, hs, (strings.HasPrefix_iff _ _).1 h⟩
    · rintro ⟨s, hs, h⟩
      exact ⟨s, hs, (strings.HasPrefix_iff _ _).2 h⟩
  refine ⟨rfl, key, ?_, by decide, by decide, by decide, by decide⟩
  intro s hs t
  exact (key _).2 ⟨s, hs, t, rfl⟩

/-! ## Authentication -/

/-- C1: for a request whose path is not skip-listed and that lacks a valid credential
(token extraction fails, or validation of the extracted token fails), `AuthMiddleware`
answers with the trace of `WriteErrorResponse(w, 401, msg)`, the same for every next
handler: the status is 401, the next handler is not invoked and no backend is
reached. -/
theorem C1_auth_rejects_missing_or_invalid_credential (sh : Shared) (r : Request)
    (hskip : shouldSkipAuth r.URL.Path = false)
    (hcred : (∃ e, sh.ExtractTokenFromHeader r = .error e) ∨
      (∃ token e, sh.ExtractTokenFromHeader r = .ok token ∧ sh.ValidateJWT token = .error e)) :
    ∃ msg : String, ∀ next : Handler,
      AuthMiddleware sh next r = shared.WriteErrorResponse http.StatusUnauthorized msg ∧
      statusCode (AuthMiddleware sh next r) = 401 ∧
      backendRequests (AuthMiddleware sh next r) = [] := by
  rcases hcred with ⟨e, he⟩ | ⟨token, e, ht, he⟩
  · refine ⟨"Invalid or missing token", fun next => ?_⟩
    have h : AuthMiddleware sh next r =
        shared.WriteErrorResponse http.StatusUnauthorized "Invalid or missing token" := by
      simp [AuthMiddleware, hskip, he]
    rw [h]
    exact ⟨rfl, rfl, rfl⟩
  · refine ⟨"Invalid token", fun next => ?_⟩
    have h : AuthMiddleware sh next r =
        shared.WriteErrorResponse http.StatusUnauthorized "Invalid token" := by
      simp [AuthMiddleware, hskip, ht, he]
    rw [h]
    exact ⟨rfl, rfl, rfl⟩

/-- Witness of C1: a request to `/orders` without a token. -/
theorem C1_auth_rejects_missing_or_invalid_credential_witness :
    shouldSkipAuth (exampleRequest "GET" "/orders" "" "10.0.0.1:5000").URL.Path = false ∧
    ∃ msg : String, ∀ next : Handler,
      AuthMiddleware exampleSharedNoToken next (exampleRequest "GET" "/orders" "" "10.0.0.1:5000") =
        shared.WriteErrorResponse http.StatusUnauthorized msg ∧
      statusCode (AuthMiddleware exampleSharedNoToken next
        (exampleRequest "GET" "/orders" "" "10.0.0.1:5000")) = 401 ∧
      backendRequests (AuthMiddleware exampleSharedNoToken next
        (exampleRequest "GET" "/orders" "" "10.0.0.1:5000")) = [] :=
  ⟨by decide,
   C1_auth_rejects_missing_or_invalid_credential exampleSharedNoToken
     (exampleRequest "GET" "/orders" "" "10.0.0.1:5000") (by decide) (Or.inl ⟨_, rfl⟩)⟩

/-- C2: for a request whose path is skip-listed, `AuthMiddleware` is the single call
`next.ServeHTTP(w, r)` with the request it received and nothing else, whatever the next
handler, whatever `ExtractTokenFromHeader` and `ValidateJWT` would answer, and whatever
the headers are, the empty header map included. -/
theorem C2_auth_passes_skip_listed_paths (r : Request)
    (hskip : shouldSkipAuth r.URL.Path = true) :
    (∀ (sh : Shared) (next : Handler), AuthMiddleware sh next r = next r) ∧
    (∀ (sh : Shared) (next : Handler) (h : Header),
      AuthMiddleware sh next { r with Header := h } = next { r with Header := h }) ∧
    (∀ (sh : Shared) (next : Handler),
      AuthMiddleware sh next { r with Header := Header.empty } =
        next { r with Header := Header.empty }) := by
  refine ⟨?_, ?_, ?_⟩
  · intro sh next
    simp [AuthMiddleware, hskip]
  · intro sh next h
    simp [AuthMiddleware, hskip]
  · intro sh next
    simp [AuthMiddleware, hskip]

/-- Witness of C2: a request to `/health` without any header passes even when no token
can be extracted. -/
theorem C2_auth_passes_skip_listed_paths_witness :
    shouldSkipAuth (exampleRequest "GET" "/health" "" "10.0.0.1:5000").URL.Path = true ∧
    AuthMiddleware exampleSharedNoToken exampleNext
        (exampleRequest "GET" "/health" "" "10.0.0.1:5000") =
      exampleNext (exampleRequest "GET" "/health" "" "10.0.0.1:5000") :=
  ⟨by decide,
   (C2_auth_passes_skip_listed_paths (exampleRequest "GET" "/health" "" "10.0.0.1:5000")
     (by decide)).1 exampleSharedNoToken exampleNext⟩


/-! ## Rate limiting -/

theorem rate.Limiter.Allow_admit (lim : rate.Limiter) (t : Nat) (h0 : lim.limit ≠ 0)
    (hb : 1 ≤ lim.burst) (hadv : (rate.unit : Int) ≤ lim.advance t) :
    lim.Allow t = ({ lim with last := t, tokens := lim.advance t - (rate.unit : Int) }, true) := by
  have hneg : ¬ (lim.advance t - ((1 * rate.unit : Nat) : Int) < 0) := by
    push_cast
    omega
  simp only [rate.Limiter.Allow, rate.Limiter.AllowN, rate.Limiter.reserveN, if_neg h0, if_neg hneg]
  simp [hb]

theorem rate.Limiter.Allow_deny (lim : rate.Limiter) (t : Nat) (h0 : lim.limit ≠ 0)
    (hadv : lim.advance t + (lim.limit : Int) ≤ (rate.unit : Int)) :
    lim.Allow t = (lim, false) := by
  have hneg : lim.advance t - ((1 * rate.unit : Nat) : Int) < 0 := by
    push_cast
    omega
  have hwait : ¬ ((-(lim.advance t - ((1 * rate.unit : Nat) : Int))).toNat / lim.limit ≤ 0) := by
    have h1 : lim.limit ≤ (-(lim.advance t - ((1 * rate.unit : Nat) : Int))).toNat := by
      push_cast
      omega
    have h2 : 1 ≤ (-(lim.advance t - ((1 * rate.unit : Nat) : Int))).toNat / lim.limit :=
      (Nat.one_le_div_iff (Nat.pos_of_ne_zero h0)).2 h1
    omega
  have hc : (decide (1 ≤ lim.burst) &&
      decide ((-(lim.advance t - ((1 * rate.unit : Nat) : Int))).toNat / lim.limit ≤ 0)) = false := by
    rw [Bool.and_eq_false_iff]
    exact Or.inr (decide_eq_false hwait)
  simp only [rate.Limiter.Allow, rate.Limiter.AllowN, rate.Limiter.reserveN, if_neg h0, if_pos hneg,
    hc]
  rfl

theorem rate.Limiter.advance_ge (lim : rate.Limiter) (t : Nat)
    (hcap : lim.tokens ≤ ((lim.burst * rate.unit : Nat) : Int)) :
    lim.tokens ≤ lim.advance t ∧ lim.advance t ≤ ((lim.burst * rate.unit : Nat) : Int) := by
  unfold rate.Limiter.advance
  simp only
  split_ifs with h1 h2 h2
  · exact ⟨hcap, le_refl _⟩
  · constructor
    · have : (0 : Int) ≤ (((t - t) * lim.limit : Nat) : Int) := Int.ofNat_nonneg _
      omega
    · omega
  · exact ⟨hcap, le_refl _⟩
  · constructor
    · have : (0 : Int) ≤ (((t - lim.last) * lim.limit : Nat) : Int) := Int.ofNat_nonneg _
      omega
    · omega

theorem rate.Limiter.advance_same (lim : rate.Limiter)
    (hcap : lim.tokens ≤ ((lim.burst * rate.unit : Nat) : Int)) :
    lim.advance lim.last = lim.tokens := by
  unfold rate.Limiter.advance
  simp only [lt_irrefl, if_false, Nat.sub_self, Nat.zero_mul, Nat.cast_zero, add_zero]
  rw [if_neg (not_lt.2 hcap)]

theorem RateLimiter.store_store (rl : RateLimiter) (k : String) (a b : rate.Limiter) :
    (rl.store k a).store k b = rl.store k b := by
  unfold RateLimiter.store
  congr 1
  funext x
  by_cases h : x = k <;> simp [h]

/-- One request through the rate limiter: the client's limiter (a new full one when the
client is unknown) takes `Allow`, its new state is stored under the client's key, and the
trace is that of `next` or the 429 answer. -/
theorem RateLimitingMiddleware_eq (next : Handler) (rl : RateLimiter) (now : Nat) (r : Request) :
    RateLimitingMiddleware next rl now r =
      (rl.store (getClientID r)
          (((rl.limiters (getClientID r)).getD (rate.NewLimiter rl.rps rl.burst)).Allow now).1,
        if (((rl.limiters (getClientID r)).getD (rate.NewLimiter rl.rps rl.burst)).Allow now).2
        then next r
        else http.Error "Rate limit exceeded" http.StatusTooManyRequests) := by
  rcases h : rl.limiters (getClientID r) with _ | lim
  · simp only [RateLimitingMiddleware, RateLimiter.getLimiter, h, Option.getD_none]
    by_cases hA : ((rate.NewLimiter rl.rps rl.burst).Allow now).2 = true <;>
      simp [hA, RateLimiter.store_store]
  · simp only [RateLimitingMiddleware, RateLimiter.getLimiter, h, Option.getD_some]
    by_cases hA : (lim.Allow now).2 = true <;> simp [hA]

theorem RateLimitingMiddleware.serveAll_append (next : Handler) (a b : List (Nat × Request)) :
    ∀ rl : RateLimiter,
      RateLimitingMiddleware.serveAll next rl (a ++ b) =
        ((RateLimitingMiddleware.serveAll next (RateLimitingMiddleware.serveAll next rl a).1 b).1,
          (RateLimitingMiddleware.serveAll next rl a).2 ++
            (RateLimitingMiddleware.serveAll next (RateLimitingMiddleware.serveAll next rl a).1 b).2) := by
  induction a with
  | nil => intro rl; simp [RateLimitingMiddleware.serveAll]
  | cons q a ih =>
    intro rl
    obtain ⟨now, r⟩ := q
    rw [List.cons_append]
    simp only [RateLimitingMiddleware.serveAll]
    rw [ih]
    simp

theorem rate.Limiter.advance_whole (n t : Nat) (hn : n ≤ 30) :
    (rate.Limiter.mk 10 30 ((n * rate.unit : Nat) : Int) t).advance t =
      ((n * rate.unit : Nat) : Int) := by
  have h := rate.Limiter.advance_same (rate.Limiter.mk 10 30 ((n * rate.unit : Nat) : Int) t)
    (by simp only [rate.unit]; push_cast; omega)
  simpa using h

theorem RateLimitingMiddleware_first (next : Handler) (rl : RateLimiter) (t : Nat) (r : Request)
    (hrps : rl.rps = 10) (hburst : rl.burst = 30) (hnew : rl.limiters (getClientID r) = none) :
    RateLimitingMiddleware next rl t r =
      (rl.store (getClientID r) (rate.Limiter.mk 10 30 ((29 * rate.unit : Nat) : Int) t), next r) := by
  have hadv : (rate.NewLimiter 10 30).advance t = ((30 * rate.unit : Nat) : Int) := by
    simp only [rate.Limiter.advance, rate.NewLimiter, rate.unit]
    split_ifs <;> push_cast at * <;> omega
  have hA := rate.Limiter.Allow_admit (rate.NewLimiter 10 30) t (by simp [rate.NewLimiter])
    (by simp [rate.NewLimiter]) (by rw [hadv]; simp only [rate.unit]; omega)
  rw [RateLimitingMiddleware_eq, hnew, hrps, hburst, Option.getD_none, hA, hadv]
  simp only [rate.NewLimiter, rate.unit, if_true]
  congr 2

theorem RateLimitingMiddleware_admit (next : Handler) (rl : RateLimiter) (t n : Nat) (r : Request)
    (hn : n + 1 ≤ 30)
    (hlim : rl.limiters (getClientID r) =
      some (rate.Limiter.mk 10 30 (((n + 1) * rate.unit : Nat) : Int) t)) :
    RateLimitingMiddleware next rl t r =
      (rl.store (getClientID r) (rate.Limiter.mk 10 30 ((n * rate.unit : Nat) : Int) t), next r) := by
  have hadv := rate.Limiter.advance_whole (n + 1) t hn
  have hA := rate.Limiter.Allow_admit (rate.Limiter.mk 10 30 (((n + 1) * rate.unit : Nat) : Int) t) t
    (by simp) (by simp) (by rw [hadv]; simp only [rate.unit]; push_cast; omega)
  rw [RateLimitingMiddleware_eq, hlim, Option.getD_some, hA, hadv]
  simp only [if_true]
  congr 2
  simp only [rate.Limiter.mk.injEq, true_and, and_true]
  push_cast
  ring

theorem RateLimitingMiddleware_deny (next : Handler) (rl : RateLimiter) (t : Nat) (r : Request)
    (hlim : rl.limiters (getClientID r) = some (rate.Limiter.mk 10 30 0 t)) :
    RateLimitingMiddleware next rl t r =
      (rl.store (getClientID r) (rate.Limiter.mk 10 30 0 t),
        http.Error "Rate limit exceeded" http.StatusTooManyRequests) := by
  have hadv : (rate.Limiter.mk 10 30 0 t).advance t = 0 := by
    have h := rate.Limiter.advance_whole 0 t (by omega)
    simpa using h
  have hA := rate.Limiter.Allow_deny (rate.Limiter.mk 10 30 0 t) t (by simp)
    (by rw [hadv]; simp [rate.unit])
  rw [RateLimitingMiddleware_eq, hlim, Option.getD_some, hA]
  simp

theorem RateLimitingMiddleware_refill (next : Handler) (rl : RateLimiter) (t : Nat) (r : Request)
    (hlim : rl.limiters (getClientID r) = some (rate.Limiter.mk 10 30 0 t)) :
    RateLimitingMiddleware next rl (t + rate.unit / 10) r =
      (rl.store (getClientID r) (rate.Limiter.mk 10 30 0 (t + rate.unit / 10)), next r) := by
  have hadv : (rate.Limiter.mk 10 30 0 t).advance (t + rate.unit / 10) = (rate.unit : Int) := by
    simp only [rate.Limiter.advance, rate.unit]
    split_ifs <;> push_cast at * <;> omega
  have hA := rate.Limiter.Allow_admit (rate.Limiter.mk 10 30 0 t) (t + rate.unit / 10)
    (by simp) (by simp) (by rw [hadv])
  rw [RateLimitingMiddleware_eq, hlim, Option.getD_some, hA, hadv]
  simp

theorem RateLimiter.store_limiters_self (rl : RateLimiter) (k : String) (lim : rate.Limiter) :
    (rl.store k lim).limiters k = some lim := by
  simp [RateLimiter.store]

/-- A run of requests of one client at one instant, within the tokens in its bucket: all
are admitted and each takes one token. -/
theorem RateLimitingMiddleware.serveAll_within_bucket (next : Handler) (k : String) (t : Nat) :
    ∀ (reqs : List Request) (n : Nat) (rl : RateLimiter),
      (∀ r ∈ reqs, getClientID r = k) → n + reqs.length ≤ 30 →
      rl.limiters k = some (rate.Limiter.mk 10 30 (((n + reqs.length) * rate.unit : Nat) : Int) t) →
      ∃ rl1 : RateLimiter,
        RateLimitingMiddleware.serveAll next rl (reqs.map (fun r => (t, r))) =
          (rl1, reqs.map next) ∧
        rl1.limiters k = some (rate.Limiter.mk 10 30 ((n * rate.unit : Nat) : Int) t) := by
  intro reqs
  induction reqs with
  | nil =>
    intro n rl _ _ hlim
    exact ⟨rl, rfl, by simpa using hlim⟩
  | cons r reqs ih =>
    intro n rl hk hn hlim
    have hr : getClientID r = k := hk r (List.mem_cons_self _ _)
    have hlen : (r :: reqs).length = reqs.length + 1 := rfl
    have hstep := RateLimitingMiddleware_admit next rl t (n + reqs.length) r
      (by rw [hlen] at hn; omega) (by rw [hr, hlim, hlen, Nat.add_assoc])
    obtain ⟨rl1, hrun, hfin⟩ := ih n (rl.store k (rate.Limiter.mk 10 30
        (((n + reqs.length) * rate.unit : Nat) : Int) t))
      (fun q hq => hk q (List.mem_cons_of_mem _ hq)) (by rw [hlen] at hn; omega)
      (RateLimiter.store_limiters_self _ _ _)
    refine ⟨rl1, ?_, hfin⟩
    rw [hr] at hstep
    simp only [List.map_cons, RateLimitingMiddleware.serveAll, hstep, hrun]

/-- C4: with the configured 10 tokens per second and burst 30, a client never seen before
that sends 31 requests at one instant has exactly the first 30 admitted (the trace is
that of the next handler) and the 31st answered 429 without the next handler; one tenth
of a second later one more request is admitted and the one after it, at that same
instant, is answered 429. -/
theorem C4_burst_of_thirty_then_one_per_tenth_second (next : Handler) (rl : RateLimiter)
    (k : String) (t : Nat) (burst : List Request) (r31 r32 r33 : Request)
    (hrps : rl.rps = 10) (hburst : rl.burst = 30) (hnew : rl.limiters k = none)
    (hlen : burst.length = 30) (hk : ∀ r ∈ burst, getClientID r = k)
    (h31 : getClientID r31 = k) (h32 : getClientID r32 = k) (h33 : getClientID r33 = k) :
    (RateLimitingMiddleware.serveAll next rl
        (burst.map (fun r => (t, r)) ++
          [(t, r31), (t + rate.unit / 10, r32), (t + rate.unit / 10, r33)])).2 =
      burst.map next ++
        [http.Error "Rate limit exceeded" http.StatusTooManyRequests,
         next r32,
         http.Error "Rate limit exceeded" http.StatusTooManyRequests] ∧
    statusCode (http.Error "Rate limit exceeded" http.StatusTooManyRequests) = 429 ∧
    backendRequests (http.Error "Rate limit exceeded" http.StatusTooManyRequests) = [] ∧
    rate.unit / 10 * 10 = rate.unit := by
  refine ⟨?_, rfl, rfl, by decide⟩
  obtain ⟨r1, rest, rfl⟩ : ∃ r1 rest, burst = r1 :: rest := by
    cases burst with
    | nil => simp at hlen
    | cons a l => exact ⟨a, l, rfl⟩
  have hrest : rest.length = 29 := by simpa using hlen
  have hr1 : getClientID r1 = k := hk r1 (List.mem_cons_self _ _)
  have hfirst := RateLimitingMiddleware_first next rl t r1 hrps hburst (by rw [hr1]; exact hnew)
  rw [hr1] at hfirst
  obtain ⟨rl1, hrun, hfin⟩ := RateLimitingMiddleware.serveAll_within_bucket next k t rest 0
    (rl.store k (rate.Limiter.mk 10 30 ((29 * rate.unit : Nat) : Int) t))
    (fun q hq => hk q (List.mem_cons_of_mem _ hq)) (by omega)
    (by rw [RateLimiter.store_limiters_self, hrest])
  have hfin0 : rl1.limiters k = some (rate.Limiter.mk 10 30 0 t) := by simpa using hfin
  have hdeny := RateLimitingMiddleware_deny next rl1 t r31 (by rw [h31]; exact hfin0)
  rw [h31] at hdeny
  have hrefill := RateLimitingMiddleware_refill next
    (rl1.store k (rate.Limiter.mk 10 30 0 t)) t r32
    (by rw [h32]; exact RateLimiter.store_limiters_self _ _ _)
  rw [h32] at hrefill
  have hdeny2 := RateLimitingMiddleware_deny next
    ((rl1.store k (rate.Limiter.mk 10 30 0 t)).store k
      (rate.Limiter.mk 10 30 0 (t + rate.unit / 10))) (t + rate.unit / 10) r33
    (by rw [h33]; exact RateLimiter.store_limiters_self _ _ _)
  rw [h33] at hdeny2
  rw [RateLimitingMiddleware.serveAll_append]
  simp only [List.map_cons, RateLimitingMiddleware.serveAll, hfirst, hrun, hdeny, hrefill, hdeny2,
    List.cons_append]

/-- Witness of C4: the configured limiter, thirty-one requests of `10.0.0.1:5000` at time
5, two more a tenth of a second later. -/
theorem C4_burst_of_thirty_then_one_per_tenth_second_witness :
    RateLimitingMiddleware.limiter.rps = 10 ∧ RateLimitingMiddleware.limiter.burst = 30 ∧
    RateLimitingMiddleware.limiter.limiters "10.0.0.1:5000" = none ∧
    (RateLimitingMiddleware.serveAll exampleNext RateLimitingMiddleware.limiter
        ((List.replicate 30 (exampleRequest "GET" "/orders" "" "10.0.0.1:5000")).map
            (fun r => (5, r)) ++
          [(5, exampleRequest "GET" "/orders" "" "10.0.0.1:5000"),
           (5 + rate.unit / 10, exampleRequest "GET" "/orders" "" "10.0.0.1:5000"),
           (5 + rate.unit / 10, exampleRequest "GET" "/orders" "" "10.0.0.1:5000")])).2 =
      (List.replicate 30 (exampleRequest "GET" "/orders" "" "10.0.0.1:5000")).map exampleNext ++
        [http.Error "Rate limit exceeded" http.StatusTooManyRequests,
         exampleNext (exampleRequest "GET" "/orders" "" "10.0.0.1:5000"),
         http.Error "Rate limit exceeded" http.StatusTooManyRequests] :=
  ⟨rfl, rfl, rfl,
   (C4_burst_of_thirty_then_one_per_tenth_second exampleNext RateLimitingMiddleware.limiter
      "10.0.0.1:5000" 5 (List.replicate 30 (exampleRequest "GET" "/orders" "" "10.0.0.1:5000"))
      (exampleRequest "GET" "/orders" "" "10.0.0.1:5000")
      (exampleRequest "GET" "/orders" "" "10.0.0.1:5000")
      (exampleRequest "GET" "/orders" "" "10.0.0.1:5000")
      rfl rfl rfl (by simp) (by intro r hr; rw [List.eq_of_mem_replicate hr]; rfl)
      rfl rfl rfl).1⟩

theorem RateLimiter.store_rps_burst (rl : RateLimiter) (k : String) (lim : rate.Limiter) :
    (rl.store k lim).rps = rl.rps ∧ (rl.store k lim).burst = rl.burst :=
  ⟨rfl, rfl⟩

theorem RateLimiter.store_limiters_other (rl : RateLimiter) (k k1 : String) (lim : rate.Limiter)
    (h : k1 ≠ k) : (rl.store k lim).limiters k1 = rl.limiters k1 := by
  simp [RateLimiter.store, h]

/-- Requests are all admitted as long as every bucket holds at least as many whole tokens
as its client has requests left in the sequence, whatever the arrival times. -/
theorem RateLimitingMiddleware.serveAll_all_admitted (next : Handler) :
    ∀ (reqs : List (Nat × Request)) (rl : RateLimiter),
      rl.rps = 10 → rl.burst = 30 →
      (∀ k : String, reqs.countP (fun q => decide (getClientID q.2 = k)) ≤ 30) →
      (∀ (k : String) (lim : rate.Limiter), rl.limiters k = some lim →
        lim.limit = 10 ∧ lim.burst = 30 ∧ lim.tokens ≤ ((30 * rate.unit : Nat) : Int) ∧
        ((reqs.countP (fun q => decide (getClientID q.2 = k)) * rate.unit : Nat) : Int) ≤
          lim.tokens) →
      (RateLimitingMiddleware.serveAll next rl reqs).2 = reqs.map (fun q => next q.2) := by
  intro reqs
  induction reqs with
  | nil => intro rl _ _ _ _; rfl
  | cons q reqs ih =>
    intro rl hrps hburst hcount hinv
    obtain ⟨now, r⟩ := q
    have hmono : ∀ k : String, reqs.countP (fun q => decide (getClientID q.2 = k)) ≤
        ((now, r) :: reqs).countP (fun q => decide (getClientID q.2 = k)) := by
      intro k
      rw [List.countP_cons]
      omega
    -- the limiter that serves this request
    have hlim0 : ∃ lim0 : rate.Limiter,
        (rl.limiters (getClientID r)).getD (rate.NewLimiter rl.rps rl.burst) = lim0 ∧
        lim0.limit = 10 ∧ lim0.burst = 30 ∧ lim0.tokens ≤ ((30 * rate.unit : Nat) : Int) ∧
        ((((now, r) :: reqs).countP (fun q => decide (getClientID q.2 = getClientID r)) *
          rate.unit : Nat) : Int) ≤ lim0.tokens := by
      rcases h : rl.limiters (getClientID r) with _ | lim
      · refine ⟨rate.NewLimiter 10 30, by simp [hrps, hburst], rfl, rfl, le_refl _, ?_⟩
        have hc := hcount (getClientID r)
        simp only [rate.NewLimiter]
        exact_mod_cast Nat.mul_le_mul_right _ hc
      · exact ⟨lim, by simp, hinv _ _ h⟩
    obtain ⟨lim0, hget, hl, hb, hcap, htok⟩ := hlim0
    have hcnt : ((now, r) :: reqs).countP (fun q => decide (getClientID q.2 = getClientID r)) =
        reqs.countP (fun q => decide (getClientID q.2 = getClientID r)) + 1 := by
      rw [List.countP_cons_of_pos]
      simp
    have hadv := rate.Limiter.advance_ge lim0 now (by rw [hb]; exact hcap)
    rw [hb] at hadv
    have hunit : (rate.unit : Int) ≤ lim0.advance now := by
      rw [hcnt] at htok
      push_cast at htok
      have : (0 : Int) ≤ (reqs.countP (fun q => decide (getClientID q.2 = getClientID r)) : Int) *
          (rate.unit : Int) := mul_nonneg (Int.ofNat_nonneg _) (Int.ofNat_nonneg _)
      linarith [hadv.1]
    have hA := rate.Limiter.Allow_admit lim0 now (by omega) (by omega) hunit
    have hstep := RateLimitingMiddleware_eq next rl now r
    rw [hget, hA] at hstep
    simp only [if_true] at hstep
    have hrest := ih (rl.store (getClientID r)
        { lim0 with last := now, tokens := lim0.advance now - (rate.unit : Int) })
      hrps hburst
      (fun k => le_trans (hmono k) (hcount k)) ?_
    · simp only [RateLimitingMiddleware.serveAll, hstep, hrest, List.map_cons]
    · intro k lim hk
      by_cases hkr : k = getClientID r
      · subst hkr
        rw [RateLimiter.store_limiters_self] at hk
        cases hk
        refine ⟨hl, hb, ?_, ?_⟩
        · simp only [rate.unit] at *
          push_cast at *
          omega
        · rw [hcnt] at htok
          push_cast at htok ⊢
          linarith [hadv.1]
      · rw [RateLimiter.store_limiters_other _ _ _ _ hkr] at hk
        obtain ⟨h1, h2, h3, h4⟩ := hinv k lim hk
        refine ⟨h1, h2, h3, le_trans ?_ h4⟩
        exact_mod_cast Nat.mul_le_mul_right _ (hmono k)

/-- C5: from the configured limiter, a sequence of requests in which no client identity
occurs more than 30 times is admitted in full, whatever the number of clients, the order
of the requests and their arrival times.  `getLimiter k` returns the bucket stored under
`k` and leaves the bucket of every other key as it was, so does a whole pass through the
middleware, and the trace and the new bucket of a request depend only on the bucket of
its own client. -/
theorem C5_no_cross_client_interference (next : Handler) (reqs : List (Nat × Request))
    (hwithin : ∀ k : String, reqs.countP (fun q => decide (getClientID q.2 = k)) ≤ 30) :
    (RateLimitingMiddleware.serveAll next RateLimitingMiddleware.limiter reqs).2 =
      reqs.map (fun q => next q.2) ∧
    (∀ (rl : RateLimiter) (k k1 : String), k1 ≠ k →
      (rl.getLimiter k).1.limiters k1 = rl.limiters k1) ∧
    (∀ (rl : RateLimiter) (k : String),
      (rl.getLimiter k).1.limiters k = some (rl.getLimiter k).2 ∧
      (∀ lim, rl.limiters k = some lim → rl.getLimiter k = (rl, lim))) ∧
    (∀ (rl : RateLimiter) (now : Nat) (r : Request) (k1 : String), k1 ≠ getClientID r →
      (RateLimitingMiddleware next rl now r).1.limiters k1 = rl.limiters k1) ∧
    (∀ (rl rl1 : RateLimiter) (now : Nat) (r : Request),
      rl.limiters (getClientID r) = rl1.limiters (getClientID r) →
      rl.rps = rl1.rps → rl.burst = rl1.burst →
      (RateLimitingMiddleware next rl now r).2 = (RateLimitingMiddleware next rl1 now r).2 ∧
      (RateLimitingMiddleware next rl now r).1.limiters (getClientID r) =
        (RateLimitingMiddleware next rl1 now r).1.limiters (getClientID r)) := by
  refine ⟨?_, ?_, ?_, ?_, ?_⟩
  · apply RateLimitingMiddleware.serveAll_all_admitted next reqs RateLimitingMiddleware.limiter
      rfl rfl hwithin
    intro k lim hk
    simp [RateLimitingMiddleware.limiter, NewRateLimiter] at hk
  · intro rl k k1 hne
    unfold RateLimiter.getLimiter
    rcases h : rl.limiters k with _ | lim
    · exact RateLimiter.store_limiters_other _ _ _ _ hne
    · rfl
  · intro rl k
    unfold RateLimiter.getLimiter
    rcases h : rl.limiters k with _ | lim
    · exact ⟨RateLimiter.store_limiters_self _ _ _, fun lim hl => by cases hl⟩
    · refine ⟨h, fun lim1 hl => ?_⟩
      cases hl
      rfl
  · intro rl now r k1 hne
    rw [RateLimitingMiddleware_eq]
    exact RateLimiter.store_limiters_other _ _ _ _ hne
  · intro rl rl1 now r hsame hrps hburst
    rw [RateLimitingMiddleware_eq, RateLimitingMiddleware_eq, hsame, hrps, hburst]
    exact ⟨rfl, by rw [RateLimiter.store_limiters_self, RateLimiter.store_limiters_self]⟩

/-- Witness of C5: two clients whose requests alternate. -/
theorem C5_no_cross_client_interference_witness :
    (RateLimitingMiddleware.serveAll exampleNext RateLimitingMiddleware.limiter
        [(0, exampleRequest "GET" "/a" "" "10.0.0.1:5000"),
         (0, exampleRequest "GET" "/b" "" "10.0.0.2:5000"),
         (0, exampleRequest "GET" "/c" "" "10.0.0.1:5000"),
         (0, exampleRequest "GET" "/d" "" "10.0.0.2:5000")]).2 =
      [exampleNext (exampleRequest "GET" "/a" "" "10.0.0.1:5000"),
       exampleNext (exampleRequest "GET" "/b" "" "10.0.0.2:5000"),
       exampleNext (exampleRequest "GET" "/c" "" "10.0.0.1:5000"),
       exampleNext (exampleRequest "GET" "/d" "" "10.0.0.2:5000")] :=
  (C5_no_cross_client_interference exampleNext
    [(0, exampleRequest "GET" "/a" "" "10.0.0.1:5000"),
     (0, exampleRequest "GET" "/b" "" "10.0.0.2:5000"),
     (0, exampleRequest "GET" "/c" "" "10.0.0.1:5000"),
     (0, exampleRequest "GET" "/d" "" "10.0.0.2:5000")]
    (fun _ => le_trans (List.countP_le_length _) (show 4 ≤ 30 by decide))).1

/-! ## Routing -/

theorem strings.TrimPrefix_append (pfx t : String) : strings.TrimPrefix (pfx ++ t) pfx = t := by
  unfold strings.TrimPrefix
  rw [if_pos (strings.HasPrefix_append pfx t)]
  apply String.ext
  simp [String.data_append]

/-- A request whose path is `pfx ++ t` passes `http.StripPrefix(pfx, h)` and reaches `h`
with the path `t`, provided something is removed or the prefix is empty. -/
theorem http.StripPrefix_append (pfx t : String) (h : Handler) (r : Request)
    (hpath : r.URL.Path = pfx ++ t) :
    http.StripPrefix pfx h r = h { r with URL := { r.URL with Path := t } } := by
  unfold http.StripPrefix
  by_cases hp : pfx = ""
  · subst hp
    have ht : r.URL.Path = t := by rw [hpath]; apply String.ext; simp [String.data_append]
    rw [if_pos rfl, ← ht]
  · rw [if_neg hp]
    have hlen : (strings.TrimPrefix r.URL.Path pfx).length < r.URL.Path.length := by
      rw [hpath, strings.TrimPrefix_append]
      have hne : pfx.data ≠ [] := fun h0 => hp (String.ext h0)
      have hpos : 0 < pfx.data.length := List.length_pos.2 hne
      show t.data.length < (pfx ++ t).data.length
      rw [String.data_append, List.length_append]
      omega
    simp only [hlen, if_true]
    rw [hpath, strings.TrimPrefix_append]

theorem backendRequests_Error (msg : String) (code : Nat) :
    backendRequests (http.Error msg code) = [] :=
  rfl

theorem httputil.ReverseProxy.backendRequests_ServeHTTP (p : httputil.ReverseProxy)
    (transport : Request → Except String Response) (req : Request) :
    backendRequests (p.ServeHTTP transport req) = [p.Director req] := by
  unfold httputil.ReverseProxy.ServeHTTP
  simp only [backendRequests]
  cases transport (p.Director req) with
  | error e => rfl
  | ok res =>
    cases p.ModifyResponse with
    | none => rfl
    | some f =>
      simp only
      cases f res with
      | error e => rfl
      | ok res1 => rfl

/-- C6: the handler of a route answers a request whose method is not in the route's list
with 405 and never hands it to the reverse proxy, so no request reaches the backend; the
same holds behind the `StripPrefix` of the prefix registration.  A request whose method is
in the list is handed to the proxy exactly once, and the proxy sends exactly one request
to the backend. -/
theorem C6_method_check_guards_the_proxy (env : Env) (proxy : httputil.ReverseProxy)
    (route : Route) (req : Request) :
    (Router.isMethodAllowed env.fold req.Method route.Methods = false →
      Router.setupRoutes.handler env proxy route req =
        http.Error "Method not allowed" http.StatusMethodNotAllowed ∧
      statusCode (Router.setupRoutes.handler env proxy route req) = 405 ∧
      backendRequests (Router.setupRoutes.handler env proxy route req) = [] ∧
      (∀ rest : String, req.URL.Path = route.Path ++ rest →
        statusCode (http.StripPrefix route.Path (Router.setupRoutes.handler env proxy route) req)
          = 405 ∧
        backendRequests
          (http.StripPrefix route.Path (Router.setupRoutes.handler env proxy route) req) = [])) ∧
    (Router.isMethodAllowed env.fold req.Method route.Methods = true →
      Router.setupRoutes.handler env proxy route req = proxy.ServeHTTP env.RoundTrip req ∧
      backendRequests (Router.setupRoutes.handler env proxy route req) = [proxy.Director req]) := by
  constructor
  · intro hno
    have h : ∀ r : Request, r.Method = req.Method →
        Router.setupRoutes.handler env proxy route r =
          http.Error "Method not allowed" http.StatusMethodNotAllowed := by
      intro r hr
      simp [Router.setupRoutes.handler, hr, hno]
    refine ⟨h req rfl, by rw [h req rfl]; rfl, by rw [h req rfl]; rfl, ?_⟩
    intro rest hpath
    rw [http.StripPrefix_append route.Path rest _ req hpath,
      h { req with URL := { req.URL with Path := rest } } rfl]
    exact ⟨rfl, rfl⟩
  · intro hyes
    have h : Router.setupRoutes.handler env proxy route req = proxy.ServeHTTP env.RoundTrip req := by
      simp [Router.setupRoutes.handler, hyes]
    exact ⟨h, by rw [h, httputil.ReverseProxy.backendRequests_ServeHTTP]⟩

/-- Witness of C6: the route `/orders` allows only `GET`; a `POST` to `/orders/42`
through the whole router is answered 405 and reaches no backend. -/
theorem C6_method_check_guards_the_proxy_witness :
    Router.isMethodAllowed exampleEnv.fold (exampleRequest "POST" "/orders/42" "" "c").Method
      exampleRoute.Methods = false ∧
    statusCode (Router.setupRoutes.handler exampleEnv (Router.setupRoutes.proxy exampleBackend)
      exampleRoute (exampleRequest "POST" "/orders/42" "" "c")) = 405 ∧
    backendRequests (Router.setupRoutes.handler exampleEnv (Router.setupRoutes.proxy exampleBackend)
      exampleRoute (exampleRequest "POST" "/orders/42" "" "c")) = [] ∧
    statusCode (exampleRouter.ServeHTTP (exampleRequest "POST" "/orders/42" "" "c")) = 405 ∧
    (backendRequests (exampleRouter.ServeHTTP (exampleRequest "POST" "/orders/42" "" "c"))).length
      = 0 ∧
    statusCode (exampleRouter.ServeHTTP (exampleRequest "POST" "/orders" "" "c")) = 405 ∧
    (backendRequests (exampleRouter.ServeHTTP (exampleRequest "POST" "/orders" "" "c"))).length
      = 0 :=
  ⟨by decide,
   ((C6_method_check_guards_the_proxy exampleEnv (Router.setupRoutes.proxy exampleBackend)
      exampleRoute (exampleRequest "POST" "/orders/42" "" "c")).1 (by decide)).2.1,
   ((C6_method_check_guards_the_proxy exampleEnv (Router.setupRoutes.proxy exampleBackend)
      exampleRoute (exampleRequest "POST" "/orders/42" "" "c")).1 (by decide)).2.2.1,
   by decide, by decide, by decide, by decide⟩

/-! ## Case folding -/

theorem Char.toNat_ofNat_of_small (n : Nat) (h : n < 55296) : (Char.ofNat n).toNat = n := by
  have hv : n.isValidChar := Or.inl h
  rw [Char.ofNat, dif_pos hv]
  rfl

theorem Char.toLower_of_upper (c : Char) (h : c.toNat ≥ 65 ∧ c.toNat ≤ 90) :
    c.toLower = Char.ofNat (c.toNat + 32) := by
  simp [Char.toLower, h]

theorem Char.toLower_of_not_upper (c : Char) (h : ¬ (c.toNat ≥ 65 ∧ c.toNat ≤ 90)) :
    c.toLower = c := by
  simp [Char.toLower, h]

theorem asciiFold_toLower (c : Char) : asciiFold c.toLower = asciiFold c := by
  show c.toLower.toLower = c.toLower
  by_cases h : c.toNat ≥ 65 ∧ c.toNat ≤ 90
  · rw [Char.toLower_of_upper c h]
    apply Char.toLower_of_not_upper
    rw [Char.toNat_ofNat_of_small _ (by omega)]
    omega
  · rw [Char.toLower_of_not_upper c h]
    exact Char.toLower_of_not_upper c h

theorem asciiFold_toUpper (c : Char) : asciiFold c.toUpper = asciiFold c := by
  show c.toUpper.toLower = c.toLower
  by_cases h : c.toNat ≥ 97 ∧ c.toNat ≤ 122
  · have h1 : c.toUpper = Char.ofNat (c.toNat - 32) := by simp [Char.toUpper, h]
    have h2 : (Char.ofNat (c.toNat - 32)).toNat = c.toNat - 32 :=
      Char.toNat_ofNat_of_small _ (by omega)
    rw [h1, Char.toLower_of_upper _ (by rw [h2]; omega), h2,
      Char.toLower_of_not_upper c (by omega)]
    have h3 : c.toNat - 32 + 32 = c.toNat := by omega
    rw [h3, Char.ofNat_toNat]
  · have h1 : c.toUpper = c := by simp [Char.toUpper, h]
    rw [h1]

theorem strings.EqualFold_loop_eq_true_iff (fold : Char → Char) :
    ∀ s t : List Char, strings.EqualFold.loop fold s t = true ↔ s.map fold = t.map fold := by
  intro s
  induction s with
  | nil =>
    intro t
    cases t <;> simp [strings.EqualFold.loop]
  | cons a s ih =>
    intro t
    cases t with
    | nil => simp [strings.EqualFold.loop]
    | cons b t =>
      simp only [strings.EqualFold.loop, Bool.and_eq_true, Bool.or_eq_true, beq_iff_eq, ih,
        List.map_cons, List.cons.injEq]
      constructor
      · rintro ⟨h | h, h2⟩
        · exact ⟨by rw [h], h2⟩
        · exact ⟨h, h2⟩
      · rintro ⟨h, h2⟩
        exact ⟨Or.inr h, h2⟩

theorem strings.EqualFold_iff (fold : Char → Char) (s t : String) :
    strings.EqualFold fold s t = true ↔ s.data.map fold = t.data.map fold :=
  strings.EqualFold_loop_eq_true_iff fold s.data t.data

theorem Router.isMethodAllowed_iff (fold : Char → Char) (method : String) (allowed : List String) :
    Router.isMethodAllowed fold method allowed = true ↔
      ∃ a ∈ allowed, strings.EqualFold fold method a = true := by
  induction allowed with
  | nil => simp [Router.isMethodAllowed]
  | cons a l ih =>
    unfold Router.isMethodAllowed
    by_cases h : strings.EqualFold fold method a = true
    · simp [h]
    · simp [h, ih]

theorem Router.isMethodAllowed_congr (fold : Char → Char) (m1 m2 : String) (l1 l2 : List String)
    (h : ∀ x : List Char, (∃ a ∈ l1, m1.data.map fold = x ∧ a.data.map fold = x) ↔
      (∃ a ∈ l2, m2.data.map fold = x ∧ a.data.map fold = x)) :
    Router.isMethodAllowed fold m1 l1 = Router.isMethodAllowed fold m2 l2 := by
  rw [Bool.eq_iff_iff, Router.isMethodAllowed_iff, Router.isMethodAllowed_iff]
  simp only [strings.EqualFold_iff]
  constructor
  · rintro ⟨a, ha, he⟩
    obtain ⟨b, hb, h1, h2⟩ := (h (a.data.map fold)).1 ⟨a, ha, he, rfl⟩
    exact ⟨b, hb, by rw [h1, h2]⟩
  · rintro ⟨a, ha, he⟩
    obtain ⟨b, hb, h1, h2⟩ := (h (a.data.map fold)).2 ⟨a, ha, he, rfl⟩
    exact ⟨b, hb, by rw [h1, h2]⟩

theorem Char.toLower_toNat_lt (c : Char) (h : c.toNat < 128) : c.toLower.toNat < 128 := by
  by_cases hu : c.toNat ≥ 65 ∧ c.toNat ≤ 90
  · rw [Char.toLower_of_upper c hu, Char.toNat_ofNat_of_small _ (by omega)]
    omega
  · rw [Char.toLower_of_not_upper c hu]
    exact h

theorem Char.toUpper_toNat_lt (c : Char) (h : c.toNat < 128) : c.toUpper.toNat < 128 := by
  by_cases hl : c.toNat ≥ 97 ∧ c.toNat ≤ 122
  · have h1 : c.toUpper = Char.ofNat (c.toNat - 32) := by simp [Char.toUpper, hl]
    rw [h1, Char.toNat_ofNat_of_small _ (by omega)]
    omega
  · have h1 : c.toUpper = c := by simp [Char.toUpper, hl]
    rw [h1]
    exact h

/-- A folding table that is exact on ASCII puts an ASCII character and its upper-case and
lower-case forms in one orbit. -/
theorem fold_ascii_case (fold : Char → Char)
    (hfold : ∀ c d : Char, c.toNat < 128 → d.toNat < 128 →
      (fold c = fold d ↔ c.toLower = d.toLower))
    (c : Char) (h : c.toNat < 128) :
    fold c.toUpper = fold c ∧ fold c.toLower = fold c :=
  ⟨(hfold _ _ (Char.toUpper_toNat_lt c h) h).2 (asciiFold_toUpper c),
   (hfold _ _ (Char.toLower_toNat_lt c h) h).2 (asciiFold_toLower c)⟩

theorem strings.ToUpper_fold (fold upper : Char → Char)
    (hfold : ∀ c d : Char, c.toNat < 128 → d.toNat < 128 →
      (fold c = fold d ↔ c.toLower = d.toLower))
    (hupper : ∀ c : Char, c.toNat < 128 → upper c = c.toUpper)
    (s : String) (hs : strings.isASCII s = true) :
    (strings.ToUpper upper s).data.map fold = s.data.map fold := by
  simp only [strings.ToUpper, List.map_map]
  apply List.map_congr_left
  intro c hc
  have hc1 : c.toNat < 128 := by
    have := List.all_eq_true.1 hs c hc
    simpa using this
  simp only [Function.comp_apply, hupper c hc1]
  exact (fold_ascii_case fold hfold c hc1).1

theorem strings.ToLower_fold (fold lower : Char → Char)
    (hfold : ∀ c d : Char, c.toNat < 128 → d.toNat < 128 →
      (fold c = fold d ↔ c.toLower = d.toLower))
    (hlower : ∀ c : Char, c.toNat < 128 → lower c = c.toLower)
    (s : String) (hs : strings.isASCII s = true) :
    (strings.ToLower lower s).data.map fold = s.data.map fold := by
  simp only [strings.ToLower, List.map_map]
  apply List.map_congr_left
  intro c hc
  have hc1 : c.toNat < 128 := by
    have := List.all_eq_true.1 hs c hc
    simpa using this
  simp only [Function.comp_apply, hlower c hc1]
  exact (fold_ascii_case fold hfold c hc1).2

/-- On ASCII strings, equality under a folding table that is exact on ASCII is equality of
the lower-case forms. -/
theorem map_fold_eq_iff_of_ascii (fold : Char → Char)
    (hfold : ∀ c d : Char, c.toNat < 128 → d.toNat < 128 →
      (fold c = fold d ↔ c.toLower = d.toLower)) :
    ∀ s t : List Char, (∀ c ∈ s, c.toNat < 128) → (∀ c ∈ t, c.toNat < 128) →
      (s.map fold = t.map fold ↔ s.map Char.toLower = t.map Char.toLower) := by
  intro s
  induction s with
  | nil =>
    intro t _ _
    cases t <;> simp
  | cons a s ih =>
    intro t hs ht
    cases t with
    | nil => simp
    | cons b t =>
      simp only [List.map_cons, List.cons.injEq]
      rw [hfold a b (hs a (List.mem_cons_self _ _)) (ht b (List.mem_cons_self _ _)),
        ih t (fun c hc => hs c (List.mem_cons_of_mem _ hc))
          (fun c hc => ht c (List.mem_cons_of_mem _ hc))]

theorem strings.isASCII_iff (s : String) :
    strings.isASCII s = true ↔ ∀ c ∈ s.data, c.toNat < 128 := by
  simp [strings.isASCII, List.all_eq_true]

/-- C7, as it stands, fails: the route allows `ı` (U+0131, dotless i) and the method is
`I`.  The two do not match, since U+0131 is alone in its folding orbit; the upper-case
form of `ı` is `I`, and with the element replaced by it the method matches. -/
theorem C7_counterexample_upper_case_of_dotless_i :
    Router.isMethodAllowed exampleSimpleFold "I" ["ı"] = false ∧
    strings.ToUpper exampleToUpper "ı" = "I" ∧
    Router.isMethodAllowed exampleSimpleFold "I" [strings.ToUpper exampleToUpper "ı"] = true := by
  decide

/-- C7, amended: `isMethodAllowed(m, allowed)` holds exactly when some element of `allowed`
equals `m` under `strings.EqualFold`, that is rune by rune up to the folding orbit; it
depends only on which strings occur in `allowed`, not on their order or multiplicity.  For
ASCII strings the test is equality of the lower-case forms, and the answer does not change
when an ASCII `m`, or an ASCII element of `allowed`, is replaced by its upper-case or
lower-case form: `get`, `Get` and `GET` pass a route allowing `GET`, and `GET` does not
pass a route allowing only `PUT`.  The tables are any tables that agree with Unicode on
ASCII. -/
theorem C7_isMethodAllowed_is_EqualFold_membership (fold upper lower : Char → Char)
    (hfold : ∀ c d : Char, c.toNat < 128 → d.toNat < 128 →
      (fold c = fold d ↔ c.toLower = d.toLower))
    (hupper : ∀ c : Char, c.toNat < 128 → upper c = c.toUpper)
    (hlower : ∀ c : Char, c.toNat < 128 → lower c = c.toLower) :
    (∀ (m : String) (allowed : List String),
      Router.isMethodAllowed fold m allowed = true ↔
        ∃ a ∈ allowed, strings.EqualFold fold m a = true) ∧
    (∀ s t : String,
      strings.EqualFold fold s t = true ↔ s.data.map fold = t.data.map fold) ∧
    (∀ (m : String) (allowed : List String),
      strings.isASCII m = true → (∀ a ∈ allowed, strings.isASCII a = true) →
      (Router.isMethodAllowed fold m allowed = true ↔
        ∃ a ∈ allowed, a.data.map Char.toLower = m.data.map Char.toLower)) ∧
    (∀ (m : String) (allowed : List String), strings.isASCII m = true →
      Router.isMethodAllowed fold (strings.ToUpper upper m) allowed =
        Router.isMethodAllowed fold m allowed ∧
      Router.isMethodAllowed fold (strings.ToLower lower m) allowed =
        Router.isMethodAllowed fold m allowed) ∧
    (∀ (m a : String) (l1 l2 : List String), strings.isASCII a = true →
      Router.isMethodAllowed fold m (l1 ++ strings.ToUpper upper a :: l2) =
        Router.isMethodAllowed fold m (l1 ++ a :: l2) ∧
      Router.isMethodAllowed fold m (l1 ++ strings.ToLower lower a :: l2) =
        Router.isMethodAllowed fold m (l1 ++ a :: l2)) ∧
    (∀ (m : String) (allowed allowed1 : List String),
      (∀ a : String, a ∈ allowed ↔ a ∈ allowed1) →
      Router.isMethodAllowed fold m allowed = Router.isMethodAllowed fold m allowed1) ∧
    Router.isMethodAllowed fold "get" ["GET"] = true ∧
    Router.isMethodAllowed fold "Get" ["GET"] = true ∧
    Router.isMethodAllowed fold "GET" ["GET"] = true ∧
    Router.isMethodAllowed fold "GET" ["PUT"] = false := by
  have hascii : ∀ (m : String) (allowed : List String),
      strings.isASCII m = true → (∀ a ∈ allowed, strings.isASCII a = true) →
      (Router.isMethodAllowed fold m allowed = true ↔
        ∃ a ∈ allowed, a.data.map Char.toLower = m.data.map Char.toLower) := by
    intro m allowed hm hall
    rw [Router.isMethodAllowed_iff]
    simp only [strings.EqualFold_iff]
    constructor
    · rintro ⟨a, ha, h⟩
      exact ⟨a, ha, ((map_fold_eq_iff_of_ascii fold hfold _ _
        ((strings.isASCII_iff a).1 (hall a ha)) ((strings.isASCII_iff m).1 hm)).1 h.symm)⟩
    · rintro ⟨a, ha, h⟩
      exact ⟨a, ha, ((map_fold_eq_iff_of_ascii fold hfold _ _
        ((strings.isASCII_iff a).1 (hall a ha)) ((strings.isASCII_iff m).1 hm)).2 h).symm⟩
  have hsingle : ∀ m a : String, strings.isASCII m = true → strings.isASCII a = true →
      (Router.isMethodAllowed fold m [a] = true ↔
        a.data.map Char.toLower = m.data.map Char.toLower) := by
    intro m a hm ha
    rw [hascii m [a] hm (fun b hb => by rw [List.mem_singleton.1 hb]; exact ha)]
    simp
  refine ⟨fun m allowed => Router.isMethodAllowed_iff fold m allowed,
    fun s t => strings.EqualFold_iff fold s t, hascii, ?_, ?_, ?_, ?_, ?_, ?_, ?_⟩
  · intro m allowed hm
    constructor
    · apply Router.isMethodAllowed_congr
      intro x
      rw [strings.ToUpper_fold fold upper hfold hupper m hm]
    · apply Router.isMethodAllowed_congr
      intro x
      rw [strings.ToLower_fold fold lower hfold hlower m hm]
  · intro m a l1 l2 ha
    have key : ∀ b : String, b.data.map fold = a.data.map fold →
        Router.isMethodAllowed fold m (l1 ++ b :: l2) =
          Router.isMethodAllowed fold m (l1 ++ a :: l2) := by
      intro b hb
      apply Router.isMethodAllowed_congr
      intro x
      constructor
      · rintro ⟨c, hc, h1, h2⟩
        rcases List.mem_append.1 hc with hc | hc
        · exact ⟨c, List.mem_append_left _ hc, h1, h2⟩
        · rcases List.mem_cons.1 hc with hc | hc
          · subst hc
            exact ⟨a, List.mem_append_right _ (List.mem_cons_self _ _), h1, by rw [← hb]; exact h2⟩
          · exact ⟨c, List.mem_append_right _ (List.mem_cons_of_mem _ hc), h1, h2⟩
      · rintro ⟨c, hc, h1, h2⟩
        rcases List.mem_append.1 hc with hc | hc
        · exact ⟨c, List.mem_append_left _ hc, h1, h2⟩
        · rcases List.mem_cons.1 hc with hc | hc
          · subst hc
            exact ⟨b, List.mem_append_right _ (List.mem_cons_self _ _), h1, by rw [hb]; exact h2⟩
          · exact ⟨c, List.mem_append_right _ (List.mem_cons_of_mem _ hc), h1, h2⟩
    exact ⟨key _ (strings.ToUpper_fold fold upper hfold hupper a ha),
      key _ (strings.ToLower_fold fold lower hfold hlower a ha)⟩
  · intro m allowed allowed1 hsame
    apply Router.isMethodAllowed_congr
    intro x
    constructor
    · rintro ⟨b, hb, h⟩
      exact ⟨b, (hsame b).1 hb, h⟩
    · rintro ⟨b, hb, h⟩
      exact ⟨b, (hsame b).2 hb, h⟩
  · exact (hsingle "get" "GET" (by decide) (by decide)).2 (by decide)
  · exact (hsingle "Get" "GET" (by decide) (by decide)).2 (by decide)
  · exact (hsingle "GET" "GET" (by decide) (by decide)).2 (by decide)
  · rw [Bool.eq_false_iff]
    intro h
    exact absurd ((hsingle "GET" "PUT" (by decide) (by decide)).1 h) (by decide)

theorem exampleSimpleFold_of_ascii (c : Char) (h : c.toNat < 128) :
    exampleSimpleFold c = c.toLower := by
  have h1 : c ≠ Char.ofNat 0x212A := by
    intro hc
    rw [hc, Char.toNat_ofNat_of_small _ (by decide)] at h
    omega
  have h2 : c ≠ Char.ofNat 0x17F := by
    intro hc
    rw [hc, Char.toNat_ofNat_of_small _ (by decide)] at h
    omega
  simp [exampleSimpleFold, h1, h2]

theorem exampleToUpper_of_ascii (c : Char) (h : c.toNat < 128) :
    exampleToUpper c = c.toUpper := by
  have h1 : c ≠ Char.ofNat 0x131 := by
    intro hc
    rw [hc, Char.toNat_ofNat_of_small _ (by decide)] at h
    omega
  have h2 : c ≠ Char.ofNat 0x17F := by
    intro hc
    rw [hc, Char.toNat_ofNat_of_small _ (by decide)] at h
    omega
  simp [exampleToUpper, h1, h2]

theorem exampleToLower_of_ascii (c : Char) (h : c.toNat < 128) :
    exampleToLower c = c.toLower := by
  have h1 : c ≠ Char.ofNat 0x130 := by
    intro hc
    rw [hc, Char.toNat_ofNat_of_small _ (by decide)] at h
    omega
  have h2 : c ≠ Char.ofNat 0x212A := by
    intro hc
    rw [hc, Char.toNat_ofNat_of_small _ (by decide)] at h
    omega
  simp [exampleToLower, h1, h2]

theorem exampleSimpleFold_exact_on_ascii (c d : Char) (hc : c.toNat < 128) (hd : d.toNat < 128) :
    exampleSimpleFold c = exampleSimpleFold d ↔ c.toLower = d.toLower := by
  rw [exampleSimpleFold_of_ascii c hc, exampleSimpleFold_of_ascii d hd]

/-- Witness of C7 amended: the tables of the examples, which agree with Unicode on ASCII
and know the dotless i; `Post` passes a route allowing `GET` and `POST`, whichever case
the list is written in. -/
theorem C7_isMethodAllowed_is_EqualFold_membership_witness :
    (∀ c d : Char, c.toNat < 128 → d.toNat < 128 →
      (exampleSimpleFold c = exampleSimpleFold d ↔ c.toLower = d.toLower)) ∧
    (∀ c : Char, c.toNat < 128 → exampleToUpper c = c.toUpper) ∧
    (∀ c : Char, c.toNat < 128 → exampleToLower c = c.toLower) ∧
    (∀ (m : String) (allowed : List String),
      strings.isASCII m = true → (∀ a ∈ allowed, strings.isASCII a = true) →
      (Router.isMethodAllowed exampleSimpleFold m allowed = true ↔
        ∃ a ∈ allowed, a.data.map Char.toLower = m.data.map Char.toLower)) ∧
    Router.isMethodAllowed exampleSimpleFold "GET" ["PUT"] = false ∧
    Router.isMethodAllowed exampleSimpleFold "Post" ["GET", "POST"] = true ∧
    Router.isMethodAllowed exampleSimpleFold "Post"
      ["GET", strings.ToLower exampleToLower "POST"] = true :=
  ⟨exampleSimpleFold_exact_on_ascii, exampleToUpper_of_ascii, exampleToLower_of_ascii,
   (C7_isMethodAllowed_is_EqualFold_membership exampleSimpleFold exampleToUpper exampleToLower
      exampleSimpleFold_exact_on_ascii exampleToUpper_of_ascii exampleToLower_of_ascii).2.2.1,
   (C7_isMethodAllowed_is_EqualFold_membership exampleSimpleFold exampleToUpper exampleToLower
      exampleSimpleFold_exact_on_ascii exampleToUpper_of_ascii
      exampleToLower_of_ascii).2.2.2.2.2.2.2.2.2,
   by decide, by decide⟩

/-! ## Forwarding -/

theorem httputil.singleJoiningSlash_origin (rest : String) :
    httputil.singleJoiningSlash "" ("/" ++ rest) = "/" ++ rest := by
  have h1 : strings.HasSuffix "" "/" = false := by decide
  have h2 : strings.HasPrefix ("/" ++ rest) "/" = true := strings.HasPrefix_append "/" rest
  simp only [httputil.singleJoiningSlash, h1, h2]
  apply String.ext
  simp [String.data_append]

/-- What reaches the backend when the handler of a route serves a request whose method is
allowed: the request rewritten by the director of the route's proxy. -/
theorem Router.setupRoutes.handler_forwards (env : Env) (route : Route) (target : URL)
    (req : Request)
    (hmethod : Router.isMethodAllowed env.fold req.Method route.Methods = true) :
    backendRequests
        (Router.setupRoutes.handler env (Router.setupRoutes.proxy target) route req) =
      [httputil.rewriteRequestURL req target] := by
  have h : Router.setupRoutes.handler env (Router.setupRoutes.proxy target) route req =
      (Router.setupRoutes.proxy target).ServeHTTP env.RoundTrip req := by
    simp [Router.setupRoutes.handler, hmethod]
  rw [h, httputil.ReverseProxy.backendRequests_ServeHTTP]
  rfl

theorem ServeMux.Handle_ok (mux mux1 : ServeMux) (pattern : String) (handler : Handler)
    (h : mux.Handle pattern handler = .ok mux1) :
    mux1 = mux ++ [{ pattern := pattern, h := handler }] := by
  unfold ServeMux.Handle at h
  split_ifs at h
  cases h
  rfl

/-- A router that `NewRouter` returns holds, in the order of the route table, the prefix
registration and the exact registration of every route, then the health endpoint; and
every backend of the table parsed. -/
theorem Router.setupRoutes.loop_ok (env : Env) :
    ∀ (routes : List Route) (mux mux1 : ServeMux),
      Router.setupRoutes.loop env mux routes = .ok mux1 →
      mux1 = mux ++ routes.flatMap (Router.setupRoutes.registrations env) ∧
      ∀ route ∈ routes, ∃ target, env.Parse route.Backend = .ok target := by
  intro routes
  induction routes with
  | nil =>
    intro mux mux1 h
    simp only [Router.setupRoutes.loop, Except.ok.injEq] at h
    simp [h]
  | cons route rest ih =>
    intro mux mux1 h
    unfold Router.setupRoutes.loop at h
    rcases hp : env.Parse route.Backend with e | target
    · simp [hp] at h
    · simp only [hp] at h
      rcases h1 : mux.Handle (route.Path ++ "/") (http.StripPrefix route.Path
          (Router.setupRoutes.handler env (Router.setupRoutes.proxy target) route)) with e | m1
      · simp [h1] at h
      · simp only [h1] at h
        rcases h2 : m1.Handle route.Path
            (Router.setupRoutes.handler env (Router.setupRoutes.proxy target) route) with e | m2
        · simp [h2] at h
        · simp only [h2] at h
          obtain ⟨hmux, hparse⟩ := ih m2 mux1 h
          have e1 := ServeMux.Handle_ok _ _ _ _ h1
          have e2 := ServeMux.Handle_ok _ _ _ _ h2
          constructor
          · rw [hmux, e2, e1, List.flatMap_cons]
            simp [Router.setupRoutes.registrations, hp]
          · intro r hr
            rcases List.mem_cons.1 hr with rfl | hr
            · exact ⟨target, hp⟩
            · exact hparse r hr

theorem NewRouter_ok (env : Env) (routes : List Route) (r : Router)
    (h : NewRouter env routes = .ok r) :
    r.routes = routes ∧
    r.mux = routes.flatMap (Router.setupRoutes.registrations env) ++
      [{ pattern := "/health", h := Router.setupRoutes.health }] ∧
    ∀ route ∈ routes, ∃ target, env.Parse route.Backend = .ok target := by
  unfold NewRouter Router.setupRoutes at h
  simp only at h
  rcases hl : Router.setupRoutes.loop env http.NewServeMux routes with e | m1
  · simp [hl] at h
  · simp only [hl] at h
    rcases hh : m1.Handle "/health" Router.setupRoutes.health with e | m2
    · simp [hh] at h
    · simp only [hh, Except.ok.injEq] at h
      obtain ⟨hmux, hparse⟩ := Router.setupRoutes.loop_ok env routes _ _ hl
      have e2 := ServeMux.Handle_ok _ _ _ _ hh
      subst h
      refine ⟨rfl, ?_, hparse⟩
      simp [e2, hmux, http.NewServeMux]

/-- C9, as it stands, fails: a `GET /orders` matches the exact registration of the route
`/orders`, whose handler is not behind `StripPrefix`, and reaches the backend with the
path `/orders`, not with the stripped path joined to the backend. -/
theorem C9_counterexample_exact_path_is_not_stripped :
    (backendRequests (exampleRouter.ServeHTTP (exampleRequest "GET" "/orders" "" "c"))).map
        (fun out => out.URL.String) = ["http://svc:9000/orders"] ∧
    (backendRequests (exampleRouter.ServeHTTP (exampleRequest "GET" "/orders" "" "c"))).map
        (fun out => out.URL.Path) = [exampleRoute.Path] ∧
    ¬ ((backendRequests (exampleRouter.ServeHTTP (exampleRequest "GET" "/orders" "" "c"))).map
        (fun out => out.URL.Path) =
      [httputil.singleJoiningSlash exampleBackend.Path
        (strings.TrimPrefix "/orders" exampleRoute.Path)]) := by
  decide

/-- C9, amended: a forwarded request that matched the prefix registration of a route
(path `P/rest`) asks the backend for the backend's path joined with `/rest`, the prefix
`P` stripped; a forwarded request that matched the exact registration (path `P`) asks for
the backend's path joined with `P` itself, nothing stripped, which for a backend without
a path and a rooted `P` is the path `P`. -/
theorem C9_prefix_stripped_exact_path_kept (env : Env) (route : Route) (target : URL)
    (req : Request)
    (hmethod : Router.isMethodAllowed env.fold req.Method route.Methods = true) :
    (∀ rest : String, req.URL.Path = route.Path ++ "/" ++ rest →
      (backendRequests
          (http.StripPrefix route.Path
            (Router.setupRoutes.handler env (Router.setupRoutes.proxy target) route) req)).map
          (fun out => (out.URL.Scheme, out.URL.Host, out.URL.Path)) =
        [(target.Scheme, target.Host,
          httputil.singleJoiningSlash target.Path ("/" ++ rest))]) ∧
    (req.URL.Path = route.Path →
      (backendRequests
          (Router.setupRoutes.handler env (Router.setupRoutes.proxy target) route req)).map
          (fun out => (out.URL.Scheme, out.URL.Host, out.URL.Path)) =
        [(target.Scheme, target.Host, httputil.singleJoiningSlash target.Path route.Path)]) ∧
    (req.URL.Path = route.Path → target.Path = "" → strings.HasPrefix route.Path "/" = true →
      (backendRequests
          (Router.setupRoutes.handler env (Router.setupRoutes.proxy target) route req)).map
          (fun out => out.URL.Path) = [route.Path]) := by
  refine ⟨?_, ?_, ?_⟩
  · intro rest hpath
    have hpath1 : req.URL.Path = route.Path ++ ("/" ++ rest) := by
      rw [hpath]
      apply String.ext
      simp [String.data_append]
    rw [http.StripPrefix_append route.Path ("/" ++ rest) _ req hpath1,
      Router.setupRoutes.handler_forwards env route target
        { req with URL := { req.URL with Path := "/" ++ rest } } hmethod]
    simp [httputil.rewriteRequestURL]
  · intro hpath
    rw [Router.setupRoutes.handler_forwards env route target _ hmethod]
    simp [httputil.rewriteRequestURL, hpath]
  · intro hpath htarget hrooted
    rw [Router.setupRoutes.handler_forwards env route target _ hmethod]
    obtain ⟨t, ht⟩ := (strings.HasPrefix_iff _ _).1 hrooted
    simp only [httputil.rewriteRequestURL, hpath, htarget, List.map_cons, List.map_nil]
    rw [ht, httputil.singleJoiningSlash_origin]

/-- Witness of C9 amended: `GET /orders/42` and `GET /orders` on the route `/orders`. -/
theorem C9_prefix_stripped_exact_path_kept_witness :
    (backendRequests
        (http.StripPrefix exampleRoute.Path
          (Router.setupRoutes.handler exampleEnv (Router.setupRoutes.proxy exampleBackend)
            exampleRoute) (exampleRequest "GET" "/orders/42" "" "c"))).map
        (fun out => (out.URL.Scheme, out.URL.Host, out.URL.Path)) =
      [("http", "svc:9000", httputil.singleJoiningSlash "" ("/" ++ "42"))] ∧
    (backendRequests
        (Router.setupRoutes.handler exampleEnv (Router.setupRoutes.proxy exampleBackend)
          exampleRoute (exampleRequest "GET" "/orders" "" "c"))).map
        (fun out => out.URL.Path) = ["/orders"] :=
  ⟨(C9_prefix_stripped_exact_path_kept exampleEnv exampleRoute exampleBackend
      (exampleRequest "GET" "/orders/42" "" "c") (by decide)).1 "42" (by decide),
   (C9_prefix_stripped_exact_path_kept exampleEnv exampleRoute exampleBackend
      (exampleRequest "GET" "/orders" "" "c") (by decide)).2.2 rfl rfl (by decide)⟩

/-! ## Response rewriting -/

theorem CanonicalMIMEHeaderKey_cors :
    CanonicalMIMEHeaderKey "Access-Control-Allow-Origin" = "Access-Control-Allow-Origin" ∧
    CanonicalMIMEHeaderKey "Access-Control-Allow-Methods" = "Access-Control-Allow-Methods" ∧
    CanonicalMIMEHeaderKey "Access-Control-Allow-Headers" = "Access-Control-Allow-Headers" := by
  decide

/-- C10: `modifyResponse` returns a nil error and leaves the response with the three
cross-origin headers, each holding its single fixed value whatever the backend sent for
it; status code, body and every other header are those of the backend's response, and a
second application changes nothing.  It is the `ModifyResponse` hook of every route's
proxy. -/
theorem C10_modifyResponse_sets_cors_headers_only (resp : Response) :
    ∃ out : Response,
      Router.modifyResponse resp = .ok out ∧
      out.Header "Access-Control-Allow-Origin" = some ["*"] ∧
      out.Header "Access-Control-Allow-Methods" = some ["GET, POST, PUT, DELETE, OPTIONS"] ∧
      out.Header "Access-Control-Allow-Headers" = some ["Content-Type, Authorization"] ∧
      out.StatusCode = resp.StatusCode ∧
      out.Body = resp.Body ∧
      (∀ k : String, k ≠ "Access-Control-Allow-Origin" → k ≠ "Access-Control-Allow-Methods" →
        k ≠ "Access-Control-Allow-Headers" → out.Header k = resp.Header k) ∧
      Router.modifyResponse out = .ok out ∧
      (∀ target : URL,
        (Router.setupRoutes.proxy target).ModifyResponse = some Router.modifyResponse) := by
  obtain ⟨hO, hM, hH⟩ := CanonicalMIMEHeaderKey_cors
  have hOM : ("Access-Control-Allow-Origin" : String) ≠ "Access-Control-Allow-Methods" := by decide
  have hOH : ("Access-Control-Allow-Origin" : String) ≠ "Access-Control-Allow-Headers" := by decide
  have hMH : ("Access-Control-Allow-Methods" : String) ≠ "Access-Control-Allow-Headers" := by decide
  refine ⟨_, rfl, ?_, ?_, ?_, rfl, rfl, ?_, ?_, fun _ => rfl⟩
  · simp [Header.Set, hO, hM, hH, hOM, hOH]
  · simp [Header.Set, hO, hM, hH, hMH]
  · simp [Header.Set, hO, hM, hH]
  · intro k h1 h2 h3
    simp [Header.Set, hO, hM, hH, h1, h2, h3]
  · unfold Router.modifyResponse
    simp only [Except.ok.injEq]
    congr 1
    funext k
    simp only [Header.Set, hO, hM, hH]
    by_cases h3 : k = "Access-Control-Allow-Headers"
    · simp [h3]
    · by_cases h2 : k = "Access-Control-Allow-Methods"
      · simp [h2, hMH]
      · by_cases h1 : k = "Access-Control-Allow-Origin"
        · simp [h1, hOM, hOH]
        · simp [h1, h2, h3]

/-! ## Authenticated requests -/

/-- C12: for a request whose path is not skip-listed and whose token is extracted and
validated with claims `c`, `AuthMiddleware` is the single call of the next handler, with
nothing written by itself, on a request whose context maps `user_id` to `c.UserID` and
`user_email` to `c.Email`, whose other context values are those of the original request,
and whose method, URL, headers, body and remote address are unchanged. -/
theorem C12_auth_attaches_claims_to_context (sh : Shared) (r : Request) (token : String)
    (c : UserClaims)
    (hskip : shouldSkipAuth r.URL.Path = false)
    (htoken : sh.ExtractTokenFromHeader r = .ok token)
    (hvalid : sh.ValidateJWT token = .ok c) :
    ∃ r1 : Request,
      (∀ next : Handler, AuthMiddleware sh next r = next r1) ∧
      r1.Context.Value "user_id" = some (CtxValue.uint c.UserID) ∧
      r1.Context.Value "user_email" = some (CtxValue.str c.Email) ∧
      (∀ k : String, k ≠ "user_id" → k ≠ "user_email" →
        r1.Context.Value k = r.Context.Value k) ∧
      r1.Method = r.Method ∧ r1.URL = r.URL ∧ r1.Header = r.Header ∧ r1.Body = r.Body ∧
      r1.RemoteAddr = r.RemoteAddr := by
  refine ⟨r.WithContext (context.WithValue (context.WithValue r.Context "user_id"
      (CtxValue.uint c.UserID)) "user_email" (CtxValue.str c.Email)), ?_, ?_, ?_, ?_,
    rfl, rfl, rfl, rfl, rfl⟩
  · intro next
    simp [AuthMiddleware, hskip, htoken, hvalid]
  · simp [Request.Context, Request.WithContext, context.WithValue, context.Context.Value,
      List.find?]
  · simp [Request.Context, Request.WithContext, context.WithValue, context.Context.Value,
      List.find?]
  · intro k h1 h2
    have e1 : (("user_email" : String) == k) = false := by
      simpa using fun h => h2 h.symm
    have e2 : (("user_id" : String) == k) = false := by
      simpa using fun h => h1 h.symm
    simp [Request.Context, Request.WithContext, context.WithValue, context.Context.Value,
      List.find?, e1, e2]

/-- Witness of C12: a request to `/orders` with a valid token of user 7. -/
theorem C12_auth_attaches_claims_to_context_witness :
    shouldSkipAuth (exampleRequest "GET" "/orders" "" "c").URL.Path = false ∧
    ∃ r1 : Request,
      (∀ next : Handler,
        AuthMiddleware exampleSharedValid next (exampleRequest "GET" "/orders" "" "c") = next r1) ∧
      r1.Context.Value "user_id" = some (CtxValue.uint 7) ∧
      r1.Context.Value "user_email" = some (CtxValue.str "a@b.c") ∧
      (∀ k : String, k ≠ "user_id" → k ≠ "user_email" →
        r1.Context.Value k = (exampleRequest "GET" "/orders" "" "c").Context.Value k) ∧
      r1.Method = "GET" ∧ r1.URL = (exampleRequest "GET" "/orders" "" "c").URL ∧
      r1.Header = Header.empty ∧ r1.Body = "" ∧ r1.RemoteAddr = "c" :=
  ⟨by decide,
   C12_auth_attaches_claims_to_context exampleSharedValid (exampleRequest "GET" "/orders" "" "c")
     "t" { UserID := 7, Email := "a@b.c" } (by decide) rfl rfl⟩

/-! ## The key of the rate limiter -/

/-- C15: the key of a request in the rate limiter is its `RemoteAddr` and nothing else.
Requests with one `RemoteAddr` meet the same bucket: whether the request is admitted and
the map after it are the same whatever the path, the headers, the context or the next
handler.  A request with another `RemoteAddr` leaves that bucket alone, and a `RemoteAddr`
not seen before gets a bucket of its own with the full burst, of which its first request
takes one token.  `10.0.0.1:5000` and `10.0.0.1:5001` are different keys: thirty requests
of each, sixty from one host, are all admitted. -/
theorem C15_rate_limit_key_is_RemoteAddr :
    (∀ r : Request, getClientID r = r.RemoteAddr) ∧
    (∀ (rl : RateLimiter) (now : Nat) (addr : String),
      ∃ (pass : Bool) (rl1 : RateLimiter), ∀ (next : Handler) (r : Request),
        r.RemoteAddr = addr →
        RateLimitingMiddleware next rl now r =
          (rl1, if pass then next r
                else http.Error "Rate limit exceeded" http.StatusTooManyRequests)) ∧
    (∀ (next : Handler) (rl : RateLimiter) (now : Nat) (r1 r2 : Request),
      r1.RemoteAddr ≠ r2.RemoteAddr →
      (RateLimitingMiddleware next rl now r1).1.limiters r2.RemoteAddr =
        rl.limiters r2.RemoteAddr) ∧
    (∀ (next : Handler) (rl : RateLimiter) (now1 now2 : Nat) (r1 r2 : Request),
      rl.rps = 10 → rl.burst = 30 → r1.RemoteAddr ≠ r2.RemoteAddr →
      rl.limiters r2.RemoteAddr = none →
      RateLimitingMiddleware next (RateLimitingMiddleware next rl now1 r1).1 now2 r2 =
        ((RateLimitingMiddleware next rl now1 r1).1.store r2.RemoteAddr
            (rate.Limiter.mk 10 30 ((29 * rate.unit : Nat) : Int) now2),
          next r2)) ∧
    ("10.0.0.1:5000" : String) ≠ "10.0.0.1:5001" ∧
    (∀ next : Handler,
      (RateLimitingMiddleware.serveAll next RateLimitingMiddleware.limiter
          (List.replicate 30 (0, exampleRequest "GET" "/orders" "" "10.0.0.1:5000") ++
            List.replicate 30 (0, exampleRequest "GET" "/orders" "" "10.0.0.1:5001"))).2 =
        (List.replicate 30 (0, exampleRequest "GET" "/orders" "" "10.0.0.1:5000") ++
          List.replicate 30 (0, exampleRequest "GET" "/orders" "" "10.0.0.1:5001")).map
          (fun q : Nat × Request => next q.2)) := by
  refine ⟨fun _ => rfl, ?_, ?_, ?_, by decide, ?_⟩
  · intro rl now addr
    refine ⟨(((rl.limiters addr).getD (rate.NewLimiter rl.rps rl.burst)).Allow now).2,
      rl.store addr (((rl.limiters addr).getD (rate.NewLimiter rl.rps rl.burst)).Allow now).1,
      ?_⟩
    intro next r hr
    rw [RateLimitingMiddleware_eq]
    have hk : getClientID r = addr := hr
    rw [hk]
  · intro next rl now r1 r2 hne
    rw [RateLimitingMiddleware_eq]
    exact RateLimiter.store_limiters_other _ _ _ _ (fun h => hne h.symm)
  · intro next rl now1 now2 r1 r2 hrps hburst hne hnew
    have hframe : (RateLimitingMiddleware next rl now1 r1).1.limiters (getClientID r2) = none := by
      rw [RateLimitingMiddleware_eq]
      exact (RateLimiter.store_limiters_other rl (getClientID r1) (getClientID r2) _
        (fun h => hne h.symm)).trans hnew
    have hcfg : (RateLimitingMiddleware next rl now1 r1).1.rps = 10 ∧
        (RateLimitingMiddleware next rl now1 r1).1.burst = 30 := by
      rw [RateLimitingMiddleware_eq]
      exact ⟨hrps, hburst⟩
    exact RateLimitingMiddleware_first next _ now2 r2 hcfg.1 hcfg.2 hframe
  · intro next
    apply RateLimitingMiddleware.serveAll_all_admitted next _ RateLimitingMiddleware.limiter
      rfl rfl
    · intro k
      rw [List.countP_append]
      by_cases hk : k = "10.0.0.1:5000"
      · subst hk
        have h2 : List.countP (fun q : Nat × Request => decide (getClientID q.2 = "10.0.0.1:5000"))
            (List.replicate 30 (0, exampleRequest "GET" "/orders" "" "10.0.0.1:5001")) = 0 := by
          rw [List.countP_eq_zero]
          intro q hq
          rw [List.eq_of_mem_replicate hq]
          decide
        rw [h2]
        exact le_trans (Nat.le_of_eq (Nat.add_zero _))
          (le_trans (List.countP_le_length _) (by simp))
      · have h1 : List.countP (fun q : Nat × Request => decide (getClientID q.2 = k))
            (List.replicate 30 (0, exampleRequest "GET" "/orders" "" "10.0.0.1:5000")) = 0 := by
          rw [List.countP_eq_zero]
          intro q hq
          rw [List.eq_of_mem_replicate hq]
          simpa [getClientID, exampleRequest] using fun h => hk h.symm
        rw [h1, Nat.zero_add]
        exact le_trans (List.countP_le_length _) (by simp)
    · intro k lim hk
      simp [RateLimitingMiddleware.limiter, NewRateLimiter] at hk

/-! ## Routes without methods -/

/-- C16: with an empty list of allowed methods `isMethodAllowed` is false for every
method, so the handler of a route whose `Methods` is empty (or absent in the
configuration, which gives the empty list) answers every request with 405 and hands none
to the proxy, also behind the `StripPrefix` of the prefix registration; an empty list
never allows anything. -/
theorem C16_empty_method_list_rejects_every_request :
    (∀ (fold : Char → Char) (method : String), Router.isMethodAllowed fold method [] = false) ∧
    (∀ (env : Env) (proxy : httputil.ReverseProxy) (route : Route) (req : Request),
      route.Methods = [] →
      Router.setupRoutes.handler env proxy route req =
        http.Error "Method not allowed" http.StatusMethodNotAllowed ∧
      statusCode (Router.setupRoutes.handler env proxy route req) = 405 ∧
      backendRequests (Router.setupRoutes.handler env proxy route req) = [] ∧
      (∀ rest : String, req.URL.Path = route.Path ++ rest →
        statusCode (http.StripPrefix route.Path (Router.setupRoutes.handler env proxy route) req)
          = 405 ∧
        backendRequests
          (http.StripPrefix route.Path (Router.setupRoutes.handler env proxy route) req) = [])) ∧
    statusCode (exampleRouterNoMethods.ServeHTTP (exampleRequest "GET" "/orders/42" "" "c")) = 405 ∧
    statusCode (exampleRouterNoMethods.ServeHTTP (exampleRequest "GET" "/orders" "" "c")) = 405 ∧
    statusCode (exampleRouterNoMethods.ServeHTTP (exampleRequest "POST" "/orders/42" "" "c")) = 405 ∧
    (backendRequests
      (exampleRouterNoMethods.ServeHTTP (exampleRequest "GET" "/orders/42" "" "c"))).length = 0 ∧
    (backendRequests
      (exampleRouterNoMethods.ServeHTTP (exampleRequest "GET" "/orders" "" "c"))).length = 0 := by
  refine ⟨fun _ _ => rfl, ?_, by decide, by decide, by decide, by decide, by decide⟩
  intro env proxy route req hempty
  have h : ∀ r : Request, Router.setupRoutes.handler env proxy route r =
      http.Error "Method not allowed" http.StatusMethodNotAllowed := by
    intro r
    simp [Router.setupRoutes.handler, hempty, Router.isMethodAllowed]
  refine ⟨h req, by rw [h req]; rfl, by rw [h req]; rfl, ?_⟩
  intro rest hpath
  rw [http.StripPrefix_append route.Path rest _ req hpath, h]
  exact ⟨rfl, rfl⟩

/-! ## Startup validation -/

theorem Router.setupRoutes.loop_append (env : Env) :
    ∀ (a b : List Route) (mux : ServeMux),
      Router.setupRoutes.loop env mux (a ++ b) =
        match Router.setupRoutes.loop env mux a with
        | .error e => .error e
        | .ok mux1 => Router.setupRoutes.loop env mux1 b := by
  intro a
  induction a with
  | nil => intro b mux; rfl
  | cons route rest ih =>
    intro b mux
    rw [List.cons_append]
    simp only [Router.setupRoutes.loop]
    rcases env.Parse route.Backend with e | target
    · rfl
    · simp only
      rcases mux.Handle (route.Path ++ "/") (http.StripPrefix route.Path
          (Router.setupRoutes.handler env (Router.setupRoutes.proxy target) route)) with e | m1
      · rfl
      · simp only
        rcases m1.Handle route.Path
            (Router.setupRoutes.handler env (Router.setupRoutes.proxy target) route) with e | m2
        · rfl
        · simp only
          exact ih b m2

/-- C14, as it stands, fails: the route table with the single backend `/internal`, which
`url.Parse` accepts as a relative reference, gives a router although the backend has no
scheme and no host; its requests are sent to a URL without origin. -/
theorem C14_counterexample_relative_backend_is_accepted :
    (match NewRouter exampleEnvRelative [exampleRouteRelative] with
      | .ok _ => true
      | .error _ => false) = true ∧
    (match exampleEnvRelative.Parse exampleRouteRelative.Backend with
      | .ok target => target.Scheme == "" && target.Host == ""
      | .error _ => false) = true ∧
    (backendRequests (exampleRouterRelative.ServeHTTP (exampleRequest "GET" "/x/1" "" "c"))).map
      (fun out => (out.URL.Scheme, out.URL.Host, out.URL.Path)) = [("", "", "/internal/1")] := by
  decide

/-- C14, amended: a route table with a backend that fails to parse gives no router,
`NewRouter` panics; when the routes before the first such backend were registered without
a panic of the mux, the message is `Invalid backend URL: ` followed by that backend.  When
`NewRouter` returns a router, every backend of the table was parsed without error by
`url.Parse` (nothing more is checked), and the mux holds, for each route, the two handlers
built on the parsed URL, so nothing is parsed at request time. -/
theorem C14_NewRouter_panics_unless_every_backend_parses (env : Env) (routes : List Route) :
    ((∃ route ∈ routes, ∃ e, env.Parse route.Backend = .error e) →
      ∃ msg, NewRouter env routes = .error msg) ∧
    (∀ (good rest : List Route) (route : Route) (mux : ServeMux) (e : String),
      routes = good ++ route :: rest →
      Router.setupRoutes.loop env http.NewServeMux good = .ok mux →
      env.Parse route.Backend = .error e →
      NewRouter env routes = .error ("Invalid backend URL: " ++ route.Backend)) ∧
    (∀ r : Router, NewRouter env routes = .ok r →
      (∀ route ∈ routes, ∃ target, env.Parse route.Backend = .ok target) ∧
      r.mux = routes.flatMap (Router.setupRoutes.registrations env) ++
        [{ pattern := "/health", h := Router.setupRoutes.health }]) := by
  refine ⟨?_, ?_, ?_⟩
  · rintro ⟨route, hmem, e, he⟩
    rcases h : NewRouter env routes with msg | r
    · exact ⟨msg, rfl⟩
    · obtain ⟨target, ht⟩ := (NewRouter_ok env routes r h).2.2 route hmem
      rw [he] at ht
      cases ht
  · intro good rest route mux e hroutes hgood hparse
    subst hroutes
    have hloop : Router.setupRoutes.loop env http.NewServeMux (good ++ route :: rest) =
        .error ("Invalid backend URL: " ++ route.Backend) := by
      rw [Router.setupRoutes.loop_append, hgood]
      simp only
      unfold Router.setupRoutes.loop
      rw [hparse]
    unfold NewRouter Router.setupRoutes
    simp only [hloop]
  · intro r h
    obtain ⟨_, hmux, hparse⟩ := NewRouter_ok env routes r h
    exact ⟨hparse, hmux⟩

/-- Witness of C14 amended: after the route `/orders`, a route whose backend `bad` does not
parse. -/
theorem C14_NewRouter_panics_unless_every_backend_parses_witness :
    NewRouter exampleEnv [exampleRoute, { Path := "/b", Backend := "bad", Methods := ["GET"] }] =
      .error ("Invalid backend URL: " ++ "bad") :=
  (C14_NewRouter_panics_unless_every_backend_parses exampleEnv
    [exampleRoute, { Path := "/b", Backend := "bad", Methods := ["GET"] }]).2.1
    [exampleRoute] [] { Path := "/b", Backend := "bad", Methods := ["GET"] }
    (http.NewServeMux ++ Router.setupRoutes.registrations exampleEnv exampleRoute) "parse"
    rfl rfl rfl

/-! ## The chain wired by `main` -/

theorem panicked_append_panic (pre : List Event) (v : String) :
    panicked (pre ++ [Event.panic v]) = true := by
  induction pre with
  | nil => rfl
  | cons e pre ih =>
    cases e <;> simp [panicked, ih]

/-- The handler that `main` gives to the server, request by request: the rate limiter
around the metrics stage around the router, and the logger around the trace of that. -/
theorem main.handler_ok (env : Env) (Metrics : Handler → Handler) (routes : List Route)
    (h : StatefulHandler) (hmain : main.handler env Metrics routes = .ok h) :
    ∃ router : Router, NewRouter env routes = .ok router ∧
      ∀ (rl : RateLimiter) (now : Nat) (r : Request),
        h rl now r =
          ((RateLimitingMiddleware (Metrics router.ServeHTTP) rl now r).1,
            LoggingMiddleware
              (fun _ => (RateLimitingMiddleware (Metrics router.ServeHTTP) rl now r).2) r) := by
  unfold main.handler at hmain
  rcases hr : NewRouter env routes with e | router
  · simp [hr] at hmain
  · simp only [hr, Except.ok.injEq] at hmain
    exact ⟨router, rfl, fun rl now r => by rw [← hmain]⟩

/-- C11: `main` passes `Logging`, `RateLimiting` and `Metrics` to `router.Use` and never
`AuthMiddleware`.  A `GET /orders/42` without any credential, a path that is not
skip-listed, goes through the handler that `main` builds to the backend
`http://svc:9000/42` and is answered 200; with `AuthMiddleware` between the rate limiter
and the metrics stage, as the claim has it, the same request is answered 401 and reaches
no backend. -/
theorem C11_main_wires_no_AuthMiddleware :
    shouldSkipAuth (exampleRequest "GET" "/orders/42" "" "10.0.0.1:5000").URL.Path = false ∧
    (backendRequests (exampleGateway exampleMetrics RateLimitingMiddleware.limiter 5
        (exampleRequest "GET" "/orders/42" "" "10.0.0.1:5000")).2).map
      (fun out => out.URL.String) = ["http://svc:9000/42"] ∧
    statusCode (exampleGateway exampleMetrics RateLimitingMiddleware.limiter 5
      (exampleRequest "GET" "/orders/42" "" "10.0.0.1:5000")).2 = 200 ∧
    statusCode (LoggingMiddleware (fun _ =>
      (RateLimitingMiddleware
        (AuthMiddleware exampleSharedNoToken (exampleMetrics exampleRouter.ServeHTTP))
        RateLimitingMiddleware.limiter 5
        (exampleRequest "GET" "/orders/42" "" "10.0.0.1:5000")).2)
      (exampleRequest "GET" "/orders/42" "" "10.0.0.1:5000")) = 401 ∧
    (backendRequests (LoggingMiddleware (fun _ =>
      (RateLimitingMiddleware
        (AuthMiddleware exampleSharedNoToken (exampleMetrics exampleRouter.ServeHTTP))
        RateLimitingMiddleware.limiter 5
        (exampleRequest "GET" "/orders/42" "" "10.0.0.1:5000")).2)
      (exampleRequest "GET" "/orders/42" "" "10.0.0.1:5000"))).length = 0 := by
  decide

/-! ## Panics -/

/-- C13, as it stands, fails: when the metrics stage panics while `GET /orders/42` is
served, the trace of the handler that `main` gives to the server is that panic alone: it
leaves the top-level handler, and no status, 5xx or other, is written for the request. -/
theorem C13_counterexample_panic_leaves_the_top_level_handler :
    (exampleGateway exampleMetricsPanics RateLimitingMiddleware.limiter 5
        (exampleRequest "GET" "/orders/42" "" "10.0.0.1:5000")).2 =
      [Event.panic "runtime error"] ∧
    panicked (exampleGateway exampleMetricsPanics RateLimitingMiddleware.limiter 5
      (exampleRequest "GET" "/orders/42" "" "10.0.0.1:5000")).2 = true ∧
    ¬ (500 ≤ statusCode (exampleGateway exampleMetricsPanics RateLimitingMiddleware.limiter 5
        (exampleRequest "GET" "/orders/42" "" "10.0.0.1:5000")).2 ∧
      statusCode (exampleGateway exampleMetricsPanics RateLimitingMiddleware.limiter 5
        (exampleRequest "GET" "/orders/42" "" "10.0.0.1:5000")).2 ≤ 599) := by
  refine ⟨rfl, by decide, by decide⟩

/-- C13, amended: no stage of the gateway catches a panic.  `LoggingMiddleware` ends with
the panic of its next handler and logs nothing; `RateLimitingMiddleware`, `AuthMiddleware`
and `Router.ServeHTTP` either answer by themselves or are exactly one call of the handler
below them, whatever that handler does; hence, when the stage below the rate limiter
panics on an admitted request, the trace of the handler that `main` gives to the server is
the trace of that stage, ending with the same panic, with nothing written after it. -/
theorem C13_no_stage_recovers_from_a_panic :
    (∀ (next : Handler) (r : Request), panicked (next r) = true →
      LoggingMiddleware next r = next r) ∧
    (∀ (next : Handler) (rl : RateLimiter) (now : Nat) (r : Request),
      (RateLimitingMiddleware next rl now r).2 = next r ∨
      (RateLimitingMiddleware next rl now r).2 =
        http.Error "Rate limit exceeded" http.StatusTooManyRequests) ∧
    (∀ (sh : Shared) (next : Handler) (r : Request),
      (∃ r1 : Request, AuthMiddleware sh next r = next r1) ∨
      (∃ msg : String,
        AuthMiddleware sh next r = shared.WriteErrorResponse http.StatusUnauthorized msg)) ∧
    (∀ (router : Router) (r : Request),
      (∃ e ∈ router.mux, router.ServeHTTP r = e.h r) ∨ router.ServeHTTP r = http.NotFound r) ∧
    (∀ (env : Env) (Metrics : Handler → Handler) (routes : List Route) (h : StatefulHandler),
      main.handler env Metrics routes = .ok h →
      ∃ router : Router, NewRouter env routes = .ok router ∧
        ∀ (rl : RateLimiter) (now : Nat) (r : Request) (pre : List Event) (v : String),
          Metrics router.ServeHTTP r = pre ++ [Event.panic v] →
          (RateLimitingMiddleware (Metrics router.ServeHTTP) rl now r).2 =
            Metrics router.ServeHTTP r →
          (h rl now r).2 = pre ++ [Event.panic v]) := by
  refine ⟨?_, ?_, ?_, ?_, ?_⟩
  · intro next r hp
    simp [LoggingMiddleware, hp]
  · intro next rl now r
    rw [RateLimitingMiddleware_eq]
    by_cases hA : (((rl.limiters (getClientID r)).getD
        (rate.NewLimiter rl.rps rl.burst)).Allow now).2 = true
    · exact Or.inl (by simp [hA])
    · exact Or.inr (by simp [hA])
  · intro sh next r
    unfold AuthMiddleware
    by_cases hskip : shouldSkipAuth r.URL.Path = true
    · exact Or.inl ⟨r, by simp [hskip]⟩
    · rcases ht : sh.ExtractTokenFromHeader r with e | token
      · exact Or.inr ⟨"Invalid or missing token", by simp [hskip]⟩
      · rcases hv : sh.ValidateJWT token with e | c
        · exact Or.inr ⟨"Invalid token", by simp [hskip, hv]⟩
        · exact Or.inl ⟨_, by simp only [hskip, hv]; rfl⟩
  · intro router r
    unfold Router.ServeHTTP ServeMux.ServeHTTP
    rcases hl : router.mux.lookup r.URL.Path with _ | e
    · exact Or.inr rfl
    · refine Or.inl ⟨e, ?_, rfl⟩
      unfold ServeMux.lookup at hl
      rcases hf : List.find? (fun e => e.pattern == r.URL.Path) router.mux with _ | e1
      · rw [hf] at hl
        simp only at hl
        have hmem : ∀ (l : List muxEntry) (best : Option muxEntry),
            (∀ b, best = some b → b ∈ router.mux) → (∀ x ∈ l, x ∈ router.mux) →
            ∀ b, List.foldl ServeMux.longer best l = some b → b ∈ router.mux := by
          intro l
          induction l with
          | nil =>
            intro best hb _ b hfold
            exact hb b hfold
          | cons x l ih =>
            intro best hb hl b hfold
            refine ih (ServeMux.longer best x) ?_ (fun y hy => hl y (List.mem_cons_of_mem _ hy))
              b hfold
            intro c hc
            unfold ServeMux.longer at hc
            rcases best with _ | b0
            · simp only [Option.some.injEq] at hc
              rw [← hc]
              exact hl x (List.mem_cons_self _ _)
            · simp only at hc
              split_ifs at hc
              · simp only [Option.some.injEq] at hc
                rw [← hc]
                exact hl x (List.mem_cons_self _ _)
              · simp only [Option.some.injEq] at hc
                rw [← hc]
                exact hb b0 rfl
        exact hmem _ none (fun b hb => by cases hb)
          (fun x hx => (List.mem_filter.1 hx).1) e hl
      · rw [hf] at hl
        simp only [Option.some.injEq] at hl
        rw [← hl]
        exact List.mem_of_find?_eq_some hf
  · intro env Metrics routes h hmain
    obtain ⟨router, hrouter, hh⟩ := main.handler_ok env Metrics routes h hmain
    refine ⟨router, hrouter, ?_⟩
    intro rl now r pre v hpanic hpass
    rw [hh]
    simp only [LoggingMiddleware, hpass, hpanic, panicked_append_panic, if_true]

/-- Witness of C13 amended: the metrics stage that panics, below `LoggingMiddleware`. -/
theorem C13_no_stage_recovers_from_a_panic_witness :
    panicked (exampleMetricsPanics exampleRouter.ServeHTTP
      (exampleRequest "GET" "/orders/42" "" "c")) = true ∧
    LoggingMiddleware (exampleMetricsPanics exampleRouter.ServeHTTP)
        (exampleRequest "GET" "/orders/42" "" "c") =
      exampleMetricsPanics exampleRouter.ServeHTTP (exampleRequest "GET" "/orders/42" "" "c") :=
  ⟨by decide,
   C13_no_stage_recovers_from_a_panic.1 (exampleMetricsPanics exampleRouter.ServeHTTP)
     (exampleRequest "GET" "/orders/42" "" "c") (by decide)⟩
